import Mathlib

/-!
Outbound datapath of the nebula overlay node.

A shallow embedding of `util/types.go` (weighted gateways and the hash-threshold
rebalancer) and of `inside.go` (packet admission, ECMP gateway selection,
handshake gating, rejection, message emission and relay forwarding).

Conventions.
* Go `int` is the 64-bit two's-complement integer, `uint64` the 64-bit unsigned
  one.  Values are `Int`/`Nat`; every arithmetic step of the source is followed
  by the wrap-around the machine performs (`wrapInt`, `% 2 ^ 64`).
* A Go panic is an explicit result: `none` for the run-time division by zero of
  `divAndRound` and for an out-of-range slice expression, `Except.error` for the
  `panic(...)` of `balancePacket`; in the stateful code the panic is recorded in
  the world (`World.panicked`) and nothing runs after it.
* Stateful code passes a `World` along: the atomic message counter of every
  session, the two fields of a host the core writes, and the trace of the calls
  made on the collaborators (device, sockets, handshake manager, cipher, ...).
  A run is sequential; the write lock of a session has no effect on it.
* Code of other packages (parser, firewall, handshake manager, cipher, header
  encoder, reject synthesiser, hash function) is a field of `Env`: an arbitrary
  function the theorems quantify over.  During one run the answer of the
  handshake manager and of the host map is a function of the address asked for.
  The queue index `q` is the one of the calling worker, so `f.readers[q]` and
  `f.writers[q]` exist.
-/

namespace Nebula

/-! ## Machine integers -/

/-- Two's-complement wrap of a mathematical integer into the range of a Go `int`
(64 bits): the result of `+`, `-` on `int`. -/
def wrapInt (x : Int) : Int := (x + 2 ^ 63) % 2 ^ 64 - 2 ^ 63

/-- Go conversion `uint64(x)` of an `int`. -/
def toUint64 (x : Int) : Nat := (x % 2 ^ 64).toNat

/-- Go conversion `int(n)` of a `uint64`. -/
def ofUint64 (n : Nat) : Int := if n < 2 ^ 63 then (n : Int) else (n : Int) - 2 ^ 64

/-! ## `net/netip` addresses -/

/-- A `netip.Addr`: the zero value `netip.Addr{}` (not a valid address), an IPv4
address (a 32-bit number) or an IPv6 address (a 128-bit number and a zone). -/
inductive Addr where
  | zero : Addr
  | ip4 (a : Nat) : Addr
  | ip6 (a : Nat) (zone : String) : Addr
  deriving DecidableEq, Repr

/-- Go `netip.Addr.IsValid`: every address but the zero `Addr`. -/
def Addr.IsValid : Addr → Bool
  | Addr.zero => false
  | _ => true

/-- The `n` low bytes of `a`, most significant first. -/
def bigEndian : Nat → Nat → List Nat
  | 0, _ => []
  | n + 1, a => (a / 256 ^ n) % 256 :: bigEndian n a

/-- Go `netip.Addr.AsSlice`: nil for the zero `Addr`, 4 or 16 bytes otherwise. -/
def Addr.AsSlice : Addr → List Nat
  | Addr.zero => []
  | Addr.ip4 a => bigEndian 4 a
  | Addr.ip6 a _ => bigEndian 16 a

/-! ## `util/types.go` -/

/-- Go `util.Gateway`. -/
structure Gateway where
  ip : Addr
  weight : Int
  upperBound : Int
  deriving DecidableEq, Repr

/-- Go `Gateway.UpperBound`. -/
def Gateway.UpperBound (g : Gateway) : Int := g.upperBound

/-- Go `util.NewGateway`: the upper bound is the zero value until rebalanced. -/
def NewGateway (ip : Addr) (weight : Int) : Gateway :=
  { ip := ip, weight := weight, upperBound := 0 }

/-- Go `Gateway.SetUpperBound`. -/
def Gateway.SetUpperBound (g : Gateway) (i : Int) : Gateway :=
  { g with upperBound := i }

/-- Go `Gateway.Ip`. -/
def Gateway.Ip (g : Gateway) : Addr := g.ip

/-- Go `Gateway.Weight`. -/
def Gateway.Weight (g : Gateway) : Int := g.weight

/-- Go `util.divAndRound` on `uint64`: `tmp := v + d/2` wraps at `2 ^ 64`, and
`tmp / d` is a run-time panic (`none`) when `d` is zero. -/
def divAndRound (v d : Nat) : Option Nat :=
  let tmp := (v + d / 2) % 2 ^ 64
  if d = 0 then none else some (tmp / d)

/-- The first loop of `RebalanceGateways`: `totalWeight += gateways[i].weight`. -/
def sumWeights (totalWeight : Int) : List Gateway → Int
  | [] => totalWeight
  | g :: rest => sumWeights (wrapInt (totalWeight + g.weight)) rest

/-- The second loop of `RebalanceGateways`, from the running `loopWeight`. -/
def rebalanceLoop (totalWeight : Int) : Int → List Gateway → Option (List Gateway)
  | _, [] => some []
  | loopWeight, g :: rest =>
    let loopWeight := wrapInt (loopWeight + g.weight)
    match divAndRound ((toUint64 loopWeight * 2 ^ 31) % 2 ^ 64) (toUint64 totalWeight) with
    | none => none
    | some r =>
      match rebalanceLoop totalWeight loopWeight rest with
      | none => none
      | some rest' => some (g.SetUpperBound (wrapInt (ofUint64 r - 1)) :: rest')

/-- Go `util.RebalanceGateways`: the list after the in-place update, or `none` when
the division panics. -/
def RebalanceGateways (gateways : List Gateway) : Option (List Gateway) :=
  rebalanceLoop (sumWeights 0 gateways) 0 gateways

/-! ## `firewall.Packet` and the ECMP balancer of `inside.go` -/

/-- The fields of `firewall.Packet` the core reads. -/
structure Packet where
  LocalIP : Addr
  RemoteIP : Addr
  LocalPort : Nat
  RemotePort : Nat
  Protocol : Nat
  Fragment : Bool
  deriving DecidableEq, Repr

/-- The bytes `hashPacket` writes to the hasher, in order. -/
def hashInput (p : Packet) : List Nat :=
  p.LocalIP.AsSlice ++ p.RemoteIP.AsSlice ++
    [p.LocalPort &&& 0xFF, (p.LocalPort >>> 8) &&& 0xFF,
     p.RemotePort &&& 0xFF, (p.RemotePort >>> 8) &&& 0xFF,
     p.Protocol % 256]

/-- Go `hashPacket`; `sum64` is the XXH3 64-bit hash of the written bytes (package
`xxh3`, not part of the repository). -/
def hashPacket (sum64 : List Nat → Nat) (p : Packet) : Int :=
  (((sum64 (hashInput p) % 2 ^ 64) &&& 0x7FFFFFFF : Nat) : Int)

/-- The loop of `balancePacket`: the ip of the first gateway whose upper bound
is at least `hash`, the zero `Addr` when there is none. -/
def selectGateway (hash : Int) : List Gateway → Addr
  | [] => Addr.zero
  | g :: rest => if hash ≤ g.UpperBound then g.Ip else selectGateway hash rest

/-- The message of the panic of `balancePacket`. -/
def bucketPanic : String := "The packet hash value should always fall inside a gateway bucket"

/-- Go `balancePacket`: `Except.error` is the panic. -/
def balancePacket (sum64 : List Nat → Nat) (fwPacket : Packet) (gateways : List Gateway) :
    Except String Addr :=
  let hash := hashPacket sum64 fwPacket
  let selectedGateway := selectGateway hash gateways
  if !selectedGateway.IsValid then Except.error bucketPanic else Except.ok selectedGateway

/-! ## Auxiliary definitions for the rebalancer's arithmetic -/

/-- The sum of the weights of a gateway list, as a mathematical integer. -/
def weightSum (gws : List Gateway) : Int := (gws.map Gateway.weight).sum

/-- The bound `(lw * 2 ^ 31 + tw / 2) / tw - 1` over the natural numbers, without
any wrap-around: what the rebalancer stores for cumulative weight `lw` out of a
total of `tw` as long as no step overflows. -/
def bucketBound (tw lw : Nat) : Int := (((lw * 2 ^ 31 + tw / 2) / tw : Nat) : Int) - 1

/-- The gateway list with `bucketBound` of the running weight as upper bounds. -/
def idealLoop (tw : Nat) : Int → List Gateway → List Gateway
  | _, [] => []
  | lw, g :: rest =>
    g.SetUpperBound (bucketBound tw (lw + g.weight).toNat) :: idealLoop tw (lw + g.weight) rest

/-! ## Buffers, peers and the world the outbound path acts on -/

/-- A byte string: the contents of a `[]byte` that is only read. -/
abbrev Bytes := List Nat

/-- A Go `[]byte` used as a buffer, seen from its first element: `arr` is the
backing array from there up to the capacity, `len` the length.  Two slices of
one array are separate values here: a write through one is not seen through the
other. -/
structure Slice where
  arr : List Nat
  len : Nat
  deriving DecidableEq, Repr

/-- Go `len(s)` bytes of contents. -/
def Slice.data (s : Slice) : Bytes := s.arr.take s.len

/-- Go `cap(s)`. -/
def Slice.cap (s : Slice) : Nat := s.arr.length

/-- Go `s[:n]`: a run-time panic (`none`) when `n` exceeds the capacity. -/
def Slice.upTo (s : Slice) (n : Nat) : Option Slice :=
  if n ≤ s.cap then some { arr := s.arr, len := n } else none

/-- Go `s[n:]`: a run-time panic (`none`) when `n` exceeds the length. -/
def Slice.dropFront (s : Slice) (n : Nat) : Option Slice :=
  if n ≤ s.len then some { arr := s.arr.drop n, len := s.len - n } else none

/-- Go `copy(s[offset:], src)`: copies `min(len(s) - offset, len(src))` bytes. -/
def Slice.copyAt (s : Slice) (offset : Nat) (src : Bytes) : Slice :=
  let n := min (s.len - offset) src.length
  { arr := s.arr.take offset ++ src.take n ++ s.arr.drop (offset + n), len := s.len }

/-- Go `netip.AddrPort`. -/
structure AddrPort where
  addr : Addr
  port : Nat
  deriving DecidableEq, Repr

/-- Go `netip.AddrPort.IsValid`. -/
def AddrPort.IsValid (a : AddrPort) : Bool := a.addr.IsValid

/-- The zero value `netip.AddrPort{}`. -/
def AddrPort.zero : AddrPort := { addr := Addr.zero, port := 0 }

/-- The fields of a `HostInfo` the core only reads.  `ConnectionState` is the
pointer to the session (a key of `World.messageCounter`). -/
structure HostInfo where
  ConnectionState : Nat
  remote : AddrPort
  remoteIndexId : Nat
  localIndexId : Nat
  vpnIp : Addr
  deriving DecidableEq, Repr

/-- The fields of a `Relay` that `SendVia` reads. -/
structure Relay where
  RemoteIndex : Nat
  LocalIndex : Nat
  deriving DecidableEq, Repr

/-- What `handshakeManager.GetOrHandshake` answers for a vpn ip: the two values
it returns, and whether it invokes the cache callback it was handed. -/
structure HandshakeResult where
  hostinfo : Option Nat
  ready : Bool
  callback : Bool
  deriving DecidableEq, Repr

/-- The calls the core makes on its collaborators, in the order it makes them. -/
inductive Event where
  /-- Go `f.readers[q].Write(b)`. -/
  | tunWrite (q : Nat) (b : Bytes) : Event
  /-- Go `f.writers[q].WriteTo(b, addr)`. -/
  | udpWrite (q : Nat) (b : Bytes) (addr : AddrPort) : Event
  /-- Go `f.handshakeManager.GetOrHandshake(vpnIp, cacheCallback)`. -/
  | getOrHandshake (vpnIp : Addr) : Event
  /-- Go `hh.cachePacket(l, t, st, packet, ...)` on the pending slot of `vpnIp`. -/
  | cachePacket (vpnIp : Addr) (t st : Nat) (packet : Bytes) : Event
  /-- Go `header.Encode(out, v, t, st, remoteIndex, c)`; `cs` records the session
  whose counter `c` was taken from. -/
  | headerEncode (cs : Nat) (t st remoteIndex c : Nat) : Event
  /-- Go `f.connectionManager.Out(localIndex)`. -/
  | connOut (localIndex : Nat) : Event
  /-- Go `f.connectionManager.RelayUsed(localIndex)`. -/
  | relayUsed (localIndex : Nat) : Event
  /-- Go `f.lightHouse.QueryServer(vpnIp)`. -/
  | queryServer (vpnIp : Addr) : Event
  /-- Go `EncryptDanger(out, ad, plaintext, c, nb)` on the key of session `cs`. -/
  | encrypt (cs : Nat) (plaintext : Bytes) (c : Nat) : Event
  /-- Go `f.hostMap.QueryVpnIpRelayFor(vpnIp, relayIp)`. -/
  | queryRelay (vpnIp relayIp : Addr) : Event
  /-- Go `hostinfo.relayState.DeleteRelay(relayIp)`. -/
  | deleteRelay (hostinfo : Nat) (relayIp : Addr) : Event
  deriving DecidableEq, Repr

/-- The mutable state: per session the atomic `messageCounter`, per host
`lastRebindCount` and the relay ips of `relayState`, the calls made so far, and
the message of a panic once one happened. -/
structure World where
  messageCounter : Nat → Nat
  lastRebindCount : Nat → Nat
  relayIps : Nat → List Addr
  trace : List Event
  panicked : Option String

/-- The configuration of the `Interface` and the code of other packages. -/
structure Env where
  /-- Go `newPacket(packet, incoming, fwPacket)`: `none` is a parse error. -/
  newPacket : Bytes → Bool → Option Packet
  dropLocalBroadcast : Bool
  myBroadcastAddr : Addr
  /-- Go `f.myVpnNet.Addr()`. -/
  myVpnNetAddr : Addr
  /-- Go `f.myVpnNet.Contains`. -/
  myVpnNetContains : Addr → Bool
  /-- The platform constant `immediatelyForwardToSelf`. -/
  immediatelyForwardToSelf : Bool
  dropMulticast : Bool
  /-- Go `netip.Addr.IsMulticast`. -/
  IsMulticast : Addr → Bool
  /-- Go `f.inside.RoutesFor`. -/
  RoutesFor : Addr → List Gateway
  /-- Go `f.handshakeManager.GetOrHandshake`. -/
  handshakeManager : Addr → HandshakeResult
  /-- Go `f.firewall.Drop(packet, incoming, hostinfo, ...)`: `none` is a nil reason. -/
  firewallDrop : Packet → Bool → Nat → Option String
  InSendReject : Bool
  OutSendReject : Bool
  /-- Go `iputil.CreateRejectPacket(packet, out)`. -/
  CreateRejectPacket : Bytes → Slice → Slice
  /-- Go `iputil.MaxRejectPacketSize`. -/
  MaxRejectPacketSize : Nat
  /-- Go `header.Len`. -/
  headerLen : Nat
  /-- Go `header.Version`. -/
  Version : Nat
  /-- Go `header.Message`. -/
  Message : Nat
  /-- Go `header.CloseTunnel`. -/
  CloseTunnel : Nat
  /-- Go `header.MessageRelay`. -/
  MessageRelay : Nat
  /-- Go `header.Encode(out, v, t, st, remoteIndex, c)`. -/
  Encode : Slice → Nat → Nat → Nat → Nat → Nat → Slice
  /-- The host a `*HostInfo` points to. -/
  hostinfo : Nat → HostInfo
  /-- Go `ci.eKey == nil`. -/
  eKeyIsNil : Nat → Bool
  /-- Go `ci.eKey.Overhead()`. -/
  Overhead : Nat → Nat
  /-- Go `ci.eKey.EncryptDanger(out, ad, plaintext, c, nb)`. -/
  EncryptDanger : Nat → Slice → Bytes → Bytes → Nat → Bytes → Except String Slice
  /-- Go `f.rebindCount`. -/
  rebindCount : Nat
  /-- Go `f.hostMap.QueryVpnIpRelayFor(vpnIp, relayIp)`: `none` is an error. -/
  QueryVpnIpRelayFor : Addr → Addr → Option (Nat × Relay)
  /-- Go `xxh3.Hasher.Sum64` of the bytes written. -/
  sum64 : List Nat → Nat

/-- Record a call. -/
def World.emit (w : World) (e : Event) : World := { w with trace := w.trace ++ [e] }

/-- Record a panic. -/
def World.panic (w : World) (msg : String) : World := { w with panicked := some msg }

/-- Go `atomic.Uint64.Add(1)` on the counter of session `cs`: the new value and the
world holding it. -/
def World.counterAdd (w : World) (cs : Nat) : Nat × World :=
  let c := (w.messageCounter cs + 1) % 2 ^ 64
  (c, { w with messageCounter := Function.update w.messageCounter cs c })

/-- The call `hostinfo.relayState.DeleteRelay(relayIP)`: the relay leaves the
relay list of the host. -/
def World.deleteRelay (w : World) (hostinfo : Nat) (relayIP : Addr) : World :=
  let kept := (w.relayIps hostinfo).filter (fun r => r ≠ relayIP)
  let w := { w with relayIps := Function.update w.relayIps hostinfo kept }
  w.emit (Event.deleteRelay hostinfo relayIP)

/-- The message of the run-time panic of an out-of-range slice expression. -/
def slicePanic : String := "slice bounds out of range"

/-! ## `inside.go` -/

/-- The call `f.handshakeManager.GetOrHandshake(vpnIp, cacheCallback)`: the
manager answers, and runs the callback on the pending slot when it decides to
and was handed one. -/
def GetOrHandshake (env : Env) (vpnIp : Addr) (cacheCallback : Option (Addr → World → World))
    (w : World) : World × Option Nat × Bool :=
  let r := env.handshakeManager vpnIp
  let w := w.emit (Event.getOrHandshake vpnIp)
  let w := if r.callback then
      match cacheCallback with
      | some cb => cb vpnIp w
      | none => w
    else w
  (w, r.hostinfo, r.ready)

/-- The fallback loop of `getOrHandshakeConsiderRouting` over the gateways of the
route, with the running values of `hostInfo` and `ok`. -/
def fallbackLoop (env : Env) (cacheCallback : Option (Addr → World → World)) (gatewayIp : Addr) :
    List Gateway → World → Option Nat → Bool → World × Option Nat × Bool
  | [], w, hostInfo, ok => (w, hostInfo, ok)
  | g :: rest, w, hostInfo, ok =>
    if g.Ip = gatewayIp then fallbackLoop env cacheCallback gatewayIp rest w hostInfo ok
    else
      match GetOrHandshake env g.Ip cacheCallback w with
      | (w, hostInfo, ok) =>
        if ok then (w, hostInfo, ok)
        else fallbackLoop env cacheCallback gatewayIp rest w hostInfo ok

/-- Function `getOrHandshakeConsiderRouting`.  When `balancePacket` panics the
panic is recorded in the world and the returned values are not used. -/
def getOrHandshakeConsiderRouting (env : Env) (fwPacket : Packet)
    (cacheCallback : Option (Addr → World → World)) (w : World) : World × Option Nat × Bool :=
  let destinationIp := fwPacket.RemoteIP
  if env.myVpnNetContains destinationIp then
    GetOrHandshake env destinationIp cacheCallback w
  else
    let gateways := env.RoutesFor destinationIp
    match gateways with
    | [] => (w, none, false)
    | [g] => GetOrHandshake env g.Ip cacheCallback w
    | _ :: _ :: _ =>
      match balancePacket env.sum64 fwPacket gateways with
      | Except.error msg => (w.panic msg, none, false)
      | Except.ok gatewayIp =>
        match GetOrHandshake env gatewayIp cacheCallback w with
        | (w, hostInfo, ok) =>
          if ok then (w, hostInfo, ok)
          else fallbackLoop env cacheCallback gatewayIp gateways w none false

/-- Method `Interface.rejectInside`. -/
def rejectInside (env : Env) (packet : Bytes) (out : Slice) (q : Nat) (w : World) : World :=
  if !env.InSendReject then w
  else
    let out := env.CreateRejectPacket packet out
    if out.len = 0 then w
    else w.emit (Event.tunWrite q out.data)

/-- The end of `SendVia`, from the test of the error of `EncryptDanger`: on
success the packet is written to the relay with writer 0 and the relay is
marked as used. -/
def relayWrite (env : Env) (via : Nat) (relay : Relay) : Except String Slice → World → World
  | Except.error _, w => w
  | Except.ok out, w =>
    let w := w.emit (Event.udpWrite 0 out.data (env.hostinfo via).remote)
    w.emit (Event.relayUsed relay.LocalIndex)

/-- Method `Interface.SendVia`.  The write lock taken when
`noiseutil.EncryptLockNeeded` holds has no effect on a sequential run.  The
slice expression `out[:offset+len(ad)]` is in range: it comes after the test of
the capacity. -/
def SendVia (env : Env) (via : Nat) (relay : Relay) (ad nb : Bytes) (out : Slice)
    (nocopy : Bool) (w : World) : World :=
  let cs := (env.hostinfo via).ConnectionState
  match w.counterAdd cs with
  | (c, w) =>
    let out := env.Encode out env.Version env.Message env.MessageRelay relay.RemoteIndex c
    let w := w.emit (Event.headerEncode cs env.Message env.MessageRelay relay.RemoteIndex c)
    let w := w.emit (Event.connOut (env.hostinfo via).localIndexId)
    if out.len + ad.length + env.Overhead cs > out.cap then w
    else
      let offset := out.len
      let out : Slice := { arr := out.arr, len := offset + ad.length }
      let out := if !nocopy then out.copyAt offset ad else out
      let w := w.emit (Event.encrypt cs [] c)
      relayWrite env via relay (env.EncryptDanger cs out out.data [] c nb) w

/-- The relay loop at the end of `sendNoMetrics` over the copy of the relay ips:
a failed lookup evicts the relay and goes on, the first found one is used.
On this path `out` was cut from `fullOut` after the first `header.Len` bytes
and shares its array, and the header and the ciphertext were written to it in
place (they fit the capacity whenever the slice expression
`fullOut[:header.Len+len(out)]` is in range), so that slice holds the bytes of
`out` from offset `header.Len` on. -/
def relayLoop (env : Env) (hostinfo : Nat) (out : Slice) (nb : Bytes) (fullOut : Slice) :
    List Addr → World → World
  | [], w => w
  | relayIP :: rest, w =>
    let w := w.emit (Event.queryRelay (env.hostinfo hostinfo).vpnIp relayIP)
    match env.QueryVpnIpRelayFor (env.hostinfo hostinfo).vpnIp relayIP with
    | none =>
      relayLoop env hostinfo out nb fullOut rest (w.deleteRelay hostinfo relayIP)
    | some (relayHostInfo, relay) =>
      match fullOut.upTo (env.headerLen + out.len) with
      | none => w.panic slicePanic
      | some full =>
        SendVia env relayHostInfo relay out.data nb (full.copyAt env.headerLen out.data) true w

/-- The two slice expressions of `sendNoMetrics` that save a header's worth of
room at the front of `out`. -/
def reserveHeader (headerLen : Nat) (out : Slice) : Option Slice :=
  match (if out.len < headerLen then out.upTo headerLen else some out) with
  | none => none
  | some out => out.dropFront headerLen

/-- The lighthouse query of `sendNoMetrics` after a rebind. -/
def rebindQuery (env : Env) (t : Nat) (hostinfo : Nat) (w : World) : World :=
  if t ≠ env.CloseTunnel ∧ w.lastRebindCount hostinfo ≠ env.rebindCount then
    let w := w.emit (Event.queryServer (env.hostinfo hostinfo).vpnIp)
    { w with lastRebindCount := Function.update w.lastRebindCount hostinfo env.rebindCount }
  else w

/-- The end of `sendNoMetrics`, from the test of the error of `EncryptDanger`:
the packet goes to the explicit remote, else to the remote of the host, else
through a relay. -/
def deliver (env : Env) (hostinfo : Nat) (remote : AddrPort) (nb : Bytes) (fullOut : Slice)
    (q : Nat) : Except String Slice → World → World
  | Except.error _, w => w
  | Except.ok out, w =>
    if remote.IsValid then w.emit (Event.udpWrite q out.data remote)
    else if (env.hostinfo hostinfo).remote.IsValid then
      w.emit (Event.udpWrite q out.data (env.hostinfo hostinfo).remote)
    else relayLoop env hostinfo out nb fullOut (w.relayIps hostinfo) w

/-- The middle of `sendNoMetrics`, once the room for the relay header is saved:
the counter is incremented, the header encoded and the payload encrypted. -/
def encodeAndEncrypt (env : Env) (t st : Nat) (ci : Nat) (hostinfo : Nat) (remote : AddrPort)
    (p nb : Bytes) (out fullOut : Slice) (q : Nat) (w : World) : World :=
  match w.counterAdd ci with
  | (c, w) =>
    let out := env.Encode out env.Version t st (env.hostinfo hostinfo).remoteIndexId c
    let w := w.emit (Event.headerEncode ci t st (env.hostinfo hostinfo).remoteIndexId c)
    let w := w.emit (Event.connOut (env.hostinfo hostinfo).localIndexId)
    let w := rebindQuery env t hostinfo w
    let w := w.emit (Event.encrypt ci p c)
    deliver env hostinfo remote nb fullOut q (env.EncryptDanger ci out out.data p c nb) w

/-- Method `Interface.sendNoMetrics`. -/
def sendNoMetrics (env : Env) (t st : Nat) (ci : Nat) (hostinfo : Nat) (remote : AddrPort)
    (p nb : Bytes) (out : Slice) (q : Nat) (w : World) : World :=
  if env.eKeyIsNil ci then w
  else
    let useRelay := !remote.IsValid && !(env.hostinfo hostinfo).remote.IsValid
    let fullOut := out
    match (if useRelay then reserveHeader env.headerLen out else some out) with
    | none => w.panic slicePanic
    | some out => encodeAndEncrypt env t st ci hostinfo remote p nb out fullOut q w

/-- Method `Interface.rejectOutside`; `packet` is also the buffer the reject
packet is encrypted into. -/
def rejectOutside (env : Env) (packet : Slice) (ci : Nat) (hostinfo : Nat) (nb : Bytes)
    (out : Slice) (q : Nat) (w : World) : World :=
  if !env.OutSendReject then w
  else
    let out := env.CreateRejectPacket packet.data out
    if out.len = 0 then w
    else if out.len > env.MaxRejectPacketSize then w
    else sendNoMetrics env env.Message 0 ci hostinfo AddrPort.zero out.data nb packet q w

/-- The cache callback of `consumeInsidePacket`:
`hh.cachePacket(f.l, header.Message, 0, packet, f.sendMessageNow, ...)`. -/
def cacheCallback (env : Env) (packet : Bytes) : Addr → World → World :=
  fun vpnIp w => w.emit (Event.cachePacket vpnIp env.Message 0 packet)

/-- Method `Interface.consumeInsidePacket`. -/
def consumeInsidePacket (env : Env) (packet nb : Bytes) (out : Slice) (q : Nat) (w : World) :
    World :=
  match env.newPacket packet false with
  | none => w
  | some fwPacket =>
    if env.dropLocalBroadcast ∧ fwPacket.RemoteIP = env.myBroadcastAddr then w
    else if fwPacket.RemoteIP = env.myVpnNetAddr then
      if env.immediatelyForwardToSelf then w.emit (Event.tunWrite q packet) else w
    else if env.dropMulticast ∧ env.IsMulticast fwPacket.RemoteIP then w
    else
      match getOrHandshakeConsiderRouting env fwPacket (some (cacheCallback env packet)) w with
      | (w, hostinfo, ready) =>
        if w.panicked.isSome then w
        else
          match hostinfo with
          | none => rejectInside env packet out q w
          | some h =>
            if !ready then w
            else
              match env.firewallDrop fwPacket false h with
              | none =>
                sendNoMetrics env env.Message 0 (env.hostinfo h).ConnectionState h AddrPort.zero
                  packet nb out q w
              | some _ => rejectInside env packet out q w

/-- The ways `consumeInsidePacket` ends: its return statements, and the
run-time panic of `balancePacket` inside `getOrHandshakeConsiderRouting`. -/
inductive Exit where
  /-- The return after `newPacket` failed (line 21). -/
  | parseError
  /-- The return of the local-broadcast filter (line 26). -/
  | localBroadcast
  /-- The return of the self test (line 42) after the write to the device (line 35). -/
  | forwardedToSelf
  /-- The return of the self test (line 42) without a write. -/
  | selfDropped
  /-- The return of the multicast filter (line 47). -/
  | multicast
  /-- The panic of `balancePacket`: the function does not return. -/
  | panicked
  /-- The return after `hostinfo == nil` and `rejectInside` (line 61). -/
  | noHost
  /-- The return at `!ready` (line 65). -/
  | notReady
  /-- The end of the function after `sendNoMetrics` was called (line 70). -/
  | sendCalled
  /-- The end of the function after the firewall denied the packet and
  `rejectInside` was called (line 73). -/
  | denied
  deriving DecidableEq, Repr

/-- Method `Interface.consumeInsidePacket` once more, returning with the world
the way it ended. -/
def consumeInsidePacketExit (env : Env) (packet nb : Bytes) (out : Slice) (q : Nat) (w : World) :
    World × Exit :=
  match env.newPacket packet false with
  | none => (w, Exit.parseError)
  | some fwPacket =>
    if env.dropLocalBroadcast ∧ fwPacket.RemoteIP = env.myBroadcastAddr then
      (w, Exit.localBroadcast)
    else if fwPacket.RemoteIP = env.myVpnNetAddr then
      if env.immediatelyForwardToSelf then (w.emit (Event.tunWrite q packet), Exit.forwardedToSelf)
      else (w, Exit.selfDropped)
    else if env.dropMulticast ∧ env.IsMulticast fwPacket.RemoteIP then (w, Exit.multicast)
    else
      match getOrHandshakeConsiderRouting env fwPacket (some (cacheCallback env packet)) w with
      | (w, hostinfo, ready) =>
        if w.panicked.isSome then (w, Exit.panicked)
        else
          match hostinfo with
          | none => (rejectInside env packet out q w, Exit.noHost)
          | some h =>
            if !ready then (w, Exit.notReady)
            else
              match env.firewallDrop fwPacket false h with
              | none =>
                (sendNoMetrics env env.Message 0 (env.hostinfo h).ConnectionState h AddrPort.zero
                  packet nb out q w, Exit.sendCalled)
              | some _ => (rejectInside env packet out q w, Exit.denied)

/-! ## Observations on the trace -/

/-- A UDP write: the packet left the node. -/
def Event.isUdpWrite : Event → Bool
  | Event.udpWrite _ _ _ => true
  | _ => false

/-- A cache callback: the packet was queued on a pending-handshake slot. -/
def Event.isCachePacket : Event → Bool
  | Event.cachePacket _ _ _ _ => true
  | _ => false

/-- A write to the tun device. -/
def Event.isTunWrite : Event → Bool
  | Event.tunWrite _ _ => true
  | _ => false

/-- A handshake-manager lookup. -/
def Event.isLookup : Event → Bool
  | Event.getOrHandshake _ => true
  | _ => false

/-- A relay lookup, a relay eviction or the use of a relay. -/
def Event.isRelay : Event → Bool
  | Event.queryRelay _ _ => true
  | Event.deleteRelay _ _ => true
  | Event.relayUsed _ => true
  | _ => false

/-- The counter of a header encoded for session `cs`. -/
def Event.headerCounter (cs : Nat) : Event → Option Nat
  | Event.headerEncode cs' _ _ _ c => if cs' = cs then some c else none
  | _ => none

/-- The counter handed to the cipher of session `cs`. -/
def Event.cipherCounter (cs : Nat) : Event → Option Nat
  | Event.encrypt cs' _ c => if cs' = cs then some c else none
  | _ => none

/-- The counters encoded in headers for session `cs`, in order. -/
def headerCounters (cs : Nat) (tr : List Event) : List Nat := tr.filterMap (Event.headerCounter cs)

/-- The counters handed to the cipher of session `cs`, in order. -/
def cipherCounters (cs : Nat) (tr : List Event) : List Nat := tr.filterMap (Event.cipherCounter cs)

/-- The packet was sent: some UDP write happened. -/
def wasSent (tr : List Event) : Bool := tr.any Event.isUdpWrite

/-- The packet was queued: the cache callback was invoked. -/
def wasQueued (tr : List Event) : Bool := tr.any Event.isCachePacket

/-- The packet was dropped, given the way `consumeInsidePacket` ended and the
events it added: the function left by a return that discards the packet (a
parse error, the local-broadcast, self or multicast filter, no host for the
destination, a firewall denial), or it left at `!ready` and the packet was not
queued, or it called `sendNoMetrics` and that wrote nothing to UDP. -/
def wasDropped (exit : Exit) (evs : List Event) : Bool :=
  match exit with
  | Exit.parseError => true
  | Exit.localBroadcast => true
  | Exit.selfDropped => true
  | Exit.multicast => true
  | Exit.noHost => true
  | Exit.denied => true
  | Exit.notReady => !wasQueued evs
  | Exit.sendCalled => !wasSent evs
  | Exit.forwardedToSelf => false
  | Exit.panicked => false

/-- The packet was written back to the device: the self test forwarded it. -/
def wasForwarded (exit : Exit) : Bool :=
  match exit with
  | Exit.forwardedToSelf => true
  | _ => false

/-- The vpn ips the handshake manager was asked for, in order. -/
def lookups : List Event → List Addr
  | [] => []
  | Event.getOrHandshake ip :: rest => ip :: lookups rest
  | _ :: rest => lookups rest

/-! ## Sequences of sends -/

/-- A call of `sendNoMetrics` or of `SendVia` with its arguments. -/
inductive Call where
  | sendNoMetrics (t st ci hostinfo : Nat) (remote : AddrPort) (p nb : Bytes) (out : Slice)
      (q : Nat) : Call
  | SendVia (via : Nat) (relay : Relay) (ad nb : Bytes) (out : Slice) (nocopy : Bool) : Call

/-- Run one call. -/
def Call.run (env : Env) : Call → World → World
  | Call.sendNoMetrics t st ci hostinfo remote p nb out q, w =>
    Nebula.sendNoMetrics env t st ci hostinfo remote p nb out q w
  | Call.SendVia via relay ad nb out nocopy, w =>
    Nebula.SendVia env via relay ad nb out nocopy w

/-- Run a sequence of calls; nothing runs after a panic. -/
def runCalls (env : Env) : List Call → World → World
  | [], w => w
  | c :: rest, w => if w.panicked.isSome then w else runCalls env rest (c.run env w)

/-! ## Auxiliary definitions for the statements on traces -/

/-- World `w'` continues `w`: its trace is the trace of `w` followed by events
that all satisfy `P`. -/
def Adds (P : Event → Prop) (w w' : World) : Prop :=
  ∃ evs, w'.trace = w.trace ++ evs ∧ ∀ e ∈ evs, P e

/-- Between `w` and `w'` the counter of session `cs` was incremented `n` times
without wrapping: the headers encoded for `cs` in between carry exactly the `n`
consecutive values after the counter of `w`, in order, and the counters handed
to the cipher of `cs` are some of these, in the same order. -/
def CounterStep (cs n : Nat) (w w' : World) : Prop :=
  ∃ evs, w'.trace = w.trace ++ evs ∧
    w'.messageCounter cs = w.messageCounter cs + n ∧
    headerCounters cs evs = List.range' (w.messageCounter cs + 1) n ∧
    (cipherCounters cs evs).Sublist (headerCounters cs evs)

/-- The events of the lighthouse query of `sendNoMetrics`. -/
def rebindEvents (env : Env) (t : Nat) (hostinfo : Nat) (w : World) : List Event :=
  if t ≠ env.CloseTunnel ∧ w.lastRebindCount hostinfo ≠ env.rebindCount then
    [Event.queryServer (env.hostinfo hostinfo).vpnIp]
  else []

/-- The events `sendNoMetrics` adds when the session has a key and the packet
does not take the relay path: one header, the tick of the connection manager,
the lighthouse query after a rebind, one encryption and, when it succeeds, one
UDP write to `dst`. -/
def directEvents (env : Env) (t st ci hostinfo : Nat) (dst : AddrPort) (p nb : Bytes)
    (out : Slice) (q : Nat) (w : World) : List Event :=
  let c := (w.messageCounter ci + 1) % 2 ^ 64
  let hdr := env.Encode out env.Version t st (env.hostinfo hostinfo).remoteIndexId c
  [Event.headerEncode ci t st (env.hostinfo hostinfo).remoteIndexId c,
    Event.connOut (env.hostinfo hostinfo).localIndexId] ++
  rebindEvents env t hostinfo w ++
  [Event.encrypt ci p c] ++
  (match env.EncryptDanger ci hdr hdr.data p c nb with
    | Except.error _ => []
    | Except.ok enc => [Event.udpWrite q enc.data dst])

/-- An event of the emitter: not a tun write, a lookup or a cache callback. -/
def Event.isEmitter (e : Event) : Bool := !e.isTunWrite && !e.isLookup && !e.isCachePacket

/-- An event of the session gate: a lookup or a cache callback. -/
def Event.isGate (e : Event) : Bool := e.isLookup || e.isCachePacket

/-- The plaintext handed to the cipher, for an encryption. -/
def Event.plaintext : Event → Option Bytes
  | Event.encrypt _ p _ => some p
  | _ => none

/-- The gateways the fallback loop asks the handshake manager for: the ips other
than the balanced one, in declared order. -/
def fallbackIps (gatewayIp : Addr) (gateways : List Gateway) : List Addr :=
  (gateways.filter (fun g => g.Ip ≠ gatewayIp)).map Gateway.Ip

/-- World `w'` continues `w` by events of the session gate only, the lookups
among them being for `ips` in this order; counters, relay lists and the panic
flag are those of `w`. -/
def GateStep (ips : List Addr) (w w' : World) : Prop :=
  (∃ evs, w'.trace = w.trace ++ evs ∧ lookups evs = ips ∧ ∀ e ∈ evs, e.isGate = true) ∧
    w'.messageCounter = w.messageCounter ∧ w'.relayIps = w.relayIps ∧
    w'.panicked = w.panicked

/-- The ips the fallback loop looks up: up to and including the first ready one. -/
def triedIps (env : Env) (ips : List Addr) : List Addr :=
  ips.takeWhile (fun ip => !(env.handshakeManager ip).ready) ++
    (ips.find? (fun ip => (env.handshakeManager ip).ready)).toList

/-- What the fallback loop returns over `ips`: the answer of the first ready ip,
else the answer of the last ip, else the values it started from. -/
def fallbackAnswer (env : Env) (ips : List Addr) (start : Option Nat × Bool) : Option Nat × Bool :=
  match ips.find? (fun ip => (env.handshakeManager ip).ready) with
  | some ip => ((env.handshakeManager ip).hostinfo, true)
  | none =>
    match ips.getLast? with
    | some ip => ((env.handshakeManager ip).hostinfo, false)
    | none => start

/-! ## `main.go`: the number of routines -/

/-- The block of `Main` that sets `routines`.  `GetInt` is `c.GetInt(key, default)`
of the configuration (package `config`): an arbitrary function here. -/
def computeRoutines (GetInt : String → Int → Int) : Int :=
  let routines := GetInt "routines" 0
  if routines ≠ 0 then
    if routines < 1 then 1 else routines
  else
    let tunQueues := GetInt "tun.routines" 1
    let udpQueues := GetInt "listen.routines" 1
    if tunQueues > udpQueues then tunQueues else udpQueues

/-- The length of `udpConns := make([]udp.Conn, routines)`: a run-time panic
(`none`) when `routines` is negative. -/
def makeUdpConns (routines : Int) : Option Nat :=
  if routines < 0 then none else some routines.toNat

/-- The read of `udpConns[0]` in `Main`: a run-time panic (`none`) when `make`
panicked or the slice is empty. -/
def firstUdpConnExists (routines : Int) : Option Unit :=
  match makeUdpConns routines with
  | none => none
  | some n => if 0 < n then some () else none

/-- The sum of the weights of the first `i + 1` gateways, as a mathematical
integer: the cumulative weight when the loop stores the bound of gateway `i`. -/
def cumWeight (gws : List Gateway) (i : Nat) : Int := weightSum (gws.take (i + 1))

/-! ## A concrete node, for the statements at concrete inputs -/

/-- Three gateways 10.0.0.2, 10.0.0.3, 10.0.0.4 of weight 1 with the upper
bounds `RebalanceGateways` gives them. -/
def demoGateways : List Gateway :=
  [⟨Addr.ip4 0x0A000002, 1, 715827882⟩, ⟨Addr.ip4 0x0A000003, 1, 1431655764⟩,
    ⟨Addr.ip4 0x0A000004, 1, 2147483647⟩]

/-- A node 10.0.0.1 in the network 10.0.0.0/24 with one route, to 192.168.0.1
through `demoGateways`.  The parser reads the destination from the first four
bytes of the packet; the hash is the sum of the bytes; the handshake manager has
10.0.0.2 and 10.0.0.3 pending (it queues) and every other host ready; the
firewall allows; the cipher appends a tag of 16 zeros and never fails; every
host has a key and a valid remote; the reject packet is the packet itself. -/
def demoEnv : Env where
  newPacket := fun b _ =>
    match b with
    | a :: b :: c :: d :: _ =>
      some ⟨Addr.ip4 0x0A000001, Addr.ip4 (((a * 256 + b) * 256 + c) * 256 + d), 1000, 80, 6, false⟩
    | _ => none
  dropLocalBroadcast := true
  myBroadcastAddr := Addr.ip4 0x0A0000FF
  myVpnNetAddr := Addr.ip4 0x0A000001
  myVpnNetContains := fun a =>
    match a with
    | Addr.ip4 x => x / 256 == 0x0A0000
    | _ => false
  immediatelyForwardToSelf := false
  dropMulticast := true
  IsMulticast := fun a =>
    match a with
    | Addr.ip4 x => x / 2 ^ 28 == 0xE
    | _ => false
  RoutesFor := fun a => if a = Addr.ip4 0xC0A80001 then demoGateways else []
  handshakeManager := fun ip =>
    if ip = Addr.ip4 0x0A000002 then ⟨some 2, false, true⟩
    else if ip = Addr.ip4 0x0A000003 then ⟨some 3, false, true⟩
    else ⟨some 4, true, false⟩
  firewallDrop := fun _ _ _ => none
  InSendReject := true
  OutSendReject := true
  CreateRejectPacket := fun packet _ => ⟨packet, packet.length⟩
  MaxRejectPacketSize := 96
  headerLen := 16
  Version := 1
  Message := 1
  CloseTunnel := 5
  MessageRelay := 1
  Encode := fun out v t st ri c =>
    ⟨(v :: t :: st :: ri :: c :: List.replicate 11 0) ++ out.arr.drop 16, 16⟩
  hostinfo := fun h => ⟨h, ⟨Addr.ip4 (0xCB007100 + h), 4242⟩, 100 + h, 200 + h,
    Addr.ip4 (0x0A000000 + h)⟩
  eKeyIsNil := fun _ => false
  Overhead := fun _ => 16
  EncryptDanger := fun _ out _ p _ _ =>
    Except.ok ⟨out.data ++ p ++ List.replicate 16 0, out.data.length + p.length + 16⟩
  rebindCount := 0
  QueryVpnIpRelayFor := fun _ _ => none
  sum64 := fun b => b.sum

/-- A world with nothing sent yet: counters at `c`, empty trace. -/
def freshWorld (c : Nat) : World where
  messageCounter := fun _ => c
  lastRebindCount := fun _ => 0
  relayIps := fun _ => []
  trace := []
  panicked := none

/-- An output buffer of capacity 64, length 0. -/
def demoOut : Slice := ⟨List.replicate 64 0, 0⟩

end Nebula

namespace Nebula

theorem wrapInt_of_range (x : Int) (h1 : -2 ^ 63 ≤ x) (h2 : x < 2 ^ 63) : wrapInt x = x := by
  unfold wrapInt
  omega

theorem sumWeights_eq (gws : List Gateway) : ∀ tw : Int, 0 ≤ tw →
    (∀ g ∈ gws, 0 ≤ g.weight) → tw + weightSum gws < 2 ^ 63 →
    sumWeights tw gws = tw + weightSum gws := by
  induction gws with
  | nil => intro tw _ _ _; simp [sumWeights, weightSum]
  | cons g rest ih =>
    intro tw h0 hpos hlt
    have hg : 0 ≤ g.weight := hpos g (List.mem_cons_self _ _)
    have hrest : ∀ g ∈ rest, 0 ≤ g.weight := fun x hx => hpos x (List.mem_cons_of_mem _ hx)
    have hsum : 0 ≤ weightSum rest := by
      unfold weightSum
      apply List.sum_nonneg
      intro x hx
      obtain ⟨y, hy, rfl⟩ := List.mem_map.1 hx
      exact hrest y hy
    have hcons : weightSum (g :: rest) = g.weight + weightSum rest := by
      simp [weightSum]
    rw [hcons] at hlt
    have hw : wrapInt (tw + g.weight) = tw + g.weight := by
      apply wrapInt_of_range <;> omega
    simp only [sumWeights, hw]
    rw [ih (tw + g.weight) (by omega) hrest (by omega), hcons]
    omega

theorem toUint64_of_nonneg (x : Int) (h1 : 0 ≤ x) (h2 : x < 2 ^ 64) :
    toUint64 x = x.toNat := by
  unfold toUint64
  rw [Int.emod_eq_of_lt h1 h2]

theorem round_le (tw lw : Nat) (h0 : 0 < tw) (hle : lw ≤ tw) :
    (lw * 2 ^ 31 + tw / 2) / tw ≤ 2 ^ 31 := by
  have h1 : lw * 2 ^ 31 + tw / 2 < (2 ^ 31 + 1) * tw := by
    have : lw * 2 ^ 31 ≤ tw * 2 ^ 31 := Nat.mul_le_mul_right _ hle
    have h2 : tw / 2 < tw := Nat.div_lt_self h0 (by decide)
    nlinarith
  have := (Nat.div_lt_iff_lt_mul h0).2 h1
  omega

theorem round_mono (tw a b : Nat) (hab : a ≤ b) :
    (a * 2 ^ 31 + tw / 2) / tw ≤ (b * 2 ^ 31 + tw / 2) / tw := by
  apply Nat.div_le_div_right
  have : a * 2 ^ 31 ≤ b * 2 ^ 31 := Nat.mul_le_mul_right _ hab
  omega

theorem round_total (tw : Nat) (h0 : 0 < tw) : (tw * 2 ^ 31 + tw / 2) / tw = 2 ^ 31 := by
  have h2 : tw / 2 < tw := Nat.div_lt_self h0 (by decide)
  rw [Nat.mul_add_div h0, Nat.div_eq_of_lt h2]; rfl

theorem divAndRound_inRange (tw lw : Nat) (h0 : 0 < tw) (h1 : tw ≤ 2 ^ 33 - 2) (hle : lw ≤ tw) :
    divAndRound ((lw * 2 ^ 31) % 2 ^ 64) tw = some ((lw * 2 ^ 31 + tw / 2) / tw) := by
  have hs : lw * 2 ^ 31 < 2 ^ 64 := by omega
  have hs2 : lw * 2 ^ 31 + tw / 2 < 2 ^ 64 := by omega
  unfold divAndRound
  simp only [Nat.mod_eq_of_lt hs, Nat.mod_eq_of_lt hs2]
  rw [if_neg (by omega)]


theorem weightSum_cons (g : Gateway) (rest : List Gateway) :
    weightSum (g :: rest) = g.weight + weightSum rest := by
  simp [weightSum]

theorem weightSum_nonneg (gws : List Gateway) (hpos : ∀ g ∈ gws, 0 ≤ g.weight) :
    0 ≤ weightSum gws := by
  unfold weightSum
  apply List.sum_nonneg
  intro x hx
  obtain ⟨y, hy, rfl⟩ := List.mem_map.1 hx
  exact hpos y hy

theorem rebalanceLoop_inRange (tw : Int) (h0 : 0 < tw) (h1 : tw ≤ 2 ^ 33 - 2) :
    ∀ (gws : List Gateway) (lw : Int), 0 ≤ lw → (∀ g ∈ gws, 0 ≤ g.weight) →
      lw + weightSum gws ≤ tw →
      rebalanceLoop tw lw gws = some (idealLoop tw.toNat lw gws) := by
  intro gws
  induction gws with
  | nil => intro lw _ _ _; simp [rebalanceLoop, idealLoop]
  | cons g rest ih =>
    intro lw hlw hpos hle
    have hg : 0 ≤ g.weight := hpos g (List.mem_cons_self _ _)
    have hrest : ∀ g ∈ rest, 0 ≤ g.weight := fun x hx => hpos x (List.mem_cons_of_mem _ hx)
    have hsum := weightSum_nonneg rest hrest
    rw [weightSum_cons] at hle
    have hw : wrapInt (lw + g.weight) = lw + g.weight := by
      apply wrapInt_of_range <;> omega
    have hu1 : toUint64 (lw + g.weight) = (lw + g.weight).toNat :=
      toUint64_of_nonneg _ (by omega) (by omega)
    have hu2 : toUint64 tw = tw.toNat := toUint64_of_nonneg _ (by omega) (by omega)
    have hd := divAndRound_inRange tw.toNat (lw + g.weight).toNat (by omega) (by omega) (by omega)
    have hr := round_le tw.toNat (lw + g.weight).toNat (by omega) (by omega)
    have hof : ofUint64 (((lw + g.weight).toNat * 2 ^ 31 + tw.toNat / 2) / tw.toNat)
        = ((((lw + g.weight).toNat * 2 ^ 31 + tw.toNat / 2) / tw.toNat : Nat) : Int) := by
      unfold ofUint64
      rw [if_pos (by omega)]
    simp only [rebalanceLoop, hw, hu1, hu2, hd, hof, idealLoop]
    rw [ih (lw + g.weight) (by omega) hrest (by omega)]
    simp only [bucketBound]
    clear hof hd
    generalize ((lw + g.weight).toNat * 2 ^ 31 + tw.toNat / 2) / tw.toNat = X at hr ⊢
    rw [wrapInt_of_range _ (by omega) (by omega)]


theorem idealLoop_ips (tw : Nat) (gws : List Gateway) : ∀ lw : Int,
    (idealLoop tw lw gws).map Gateway.ip = gws.map Gateway.ip ∧
    (idealLoop tw lw gws).map Gateway.weight = gws.map Gateway.weight ∧
    (idealLoop tw lw gws).length = gws.length := by
  induction gws with
  | nil => intro lw; simp [idealLoop]
  | cons g rest ih =>
    intro lw
    obtain ⟨h1, h2, h3⟩ := ih (lw + g.weight)
    simp [idealLoop, Gateway.SetUpperBound, h1, h2, h3]

theorem bucketBound_mono (tw a b : Nat) (hab : a ≤ b) : bucketBound tw a ≤ bucketBound tw b := by
  have := round_mono tw a b hab
  unfold bucketBound
  omega

theorem idealLoop_lower (tw : Nat) (gws : List Gateway) : ∀ lw : Int, 0 ≤ lw →
    (∀ g ∈ gws, 0 ≤ g.weight) →
    ∀ x ∈ idealLoop tw lw gws, bucketBound tw lw.toNat ≤ x.upperBound := by
  induction gws with
  | nil => intro lw _ _ x hx; simp [idealLoop] at hx
  | cons g rest ih =>
    intro lw hlw hpos x hx
    have hg : 0 ≤ g.weight := hpos g (List.mem_cons_self _ _)
    have hrest : ∀ g ∈ rest, 0 ≤ g.weight := fun x hx => hpos x (List.mem_cons_of_mem _ hx)
    have hstep : bucketBound tw lw.toNat ≤ bucketBound tw (lw + g.weight).toNat :=
      bucketBound_mono tw _ _ (by omega)
    simp only [idealLoop, List.mem_cons] at hx
    rcases hx with hx | hx
    · subst hx
      simpa [Gateway.SetUpperBound] using hstep
    · exact le_trans hstep (ih (lw + g.weight) (by omega) hrest x hx)

theorem idealLoop_pairwise (tw : Nat) (gws : List Gateway) : ∀ lw : Int, 0 ≤ lw →
    (∀ g ∈ gws, 0 ≤ g.weight) →
    (idealLoop tw lw gws).Pairwise (fun a b => a.upperBound ≤ b.upperBound) := by
  induction gws with
  | nil => intro lw _ _; simp [idealLoop]
  | cons g rest ih =>
    intro lw hlw hpos
    have hg : 0 ≤ g.weight := hpos g (List.mem_cons_self _ _)
    have hrest : ∀ g ∈ rest, 0 ≤ g.weight := fun x hx => hpos x (List.mem_cons_of_mem _ hx)
    simp only [idealLoop, List.pairwise_cons]
    refine ⟨?_, ih (lw + g.weight) (by omega) hrest⟩
    intro x hx
    simpa [Gateway.SetUpperBound] using idealLoop_lower tw rest (lw + g.weight) (by omega) hrest x hx

theorem idealLoop_getLast (tw : Nat) (gws : List Gateway) : ∀ (lw : Int)
    (h : idealLoop tw lw gws ≠ []),
    ((idealLoop tw lw gws).getLast h).upperBound = bucketBound tw (lw + weightSum gws).toNat := by
  induction gws with
  | nil => intro lw h; simp [idealLoop] at h
  | cons g rest ih =>
    cases rest with
    | nil => intro lw h; simp [idealLoop, Gateway.SetUpperBound, weightSum]
    | cons g2 rest2 =>
      intro lw h
      rw [weightSum_cons]
      have hne : idealLoop tw (lw + g.weight) (g2 :: rest2) ≠ [] := by simp [idealLoop]
      have := ih (lw + g.weight) hne
      simp only [idealLoop] at this ⊢
      rw [List.getLast_cons (by simp)]
      rw [this, add_assoc]

theorem RebalanceGateways_inRange (gws : List Gateway) (hpos : ∀ g ∈ gws, 0 ≤ g.weight)
    (h0 : 0 < weightSum gws) (h1 : weightSum gws ≤ 2 ^ 33 - 2) :
    RebalanceGateways gws = some (idealLoop (weightSum gws).toNat 0 gws) := by
  unfold RebalanceGateways
  rw [sumWeights_eq gws 0 (le_refl _) hpos (by omega)]
  simp only [zero_add]
  exact rebalanceLoop_inRange _ h0 h1 gws 0 (le_refl _) hpos (by omega)

end Nebula

namespace Nebula

/-! ## The balancer -/

theorem hashPacket_nonneg (sum64 : List Nat → Nat) (p : Packet) : 0 ≤ hashPacket sum64 p := by
  unfold hashPacket
  exact Int.natCast_nonneg _

theorem hashPacket_le (sum64 : List Nat → Nat) (p : Packet) :
    hashPacket sum64 p ≤ 2 ^ 31 - 1 := by
  unfold hashPacket
  have h : (sum64 (hashInput p) % 2 ^ 64) &&& 0x7FFFFFFF ≤ 0x7FFFFFFF := Nat.and_le_right
  omega

theorem selectGateway_append (hash : Int) (pre : List Gateway) (g : Gateway)
    (post : List Gateway) (hpre : ∀ x ∈ pre, x.UpperBound < hash) (hg : hash ≤ g.UpperBound) :
    selectGateway hash (pre ++ g :: post) = g.Ip := by
  induction pre with
  | nil => simp [selectGateway, hg]
  | cons x rest ih =>
    have hx : ¬ hash ≤ x.UpperBound := not_le.2 (hpre x (List.mem_cons_self _ _))
    simp only [List.cons_append, selectGateway, if_neg hx]
    exact ih (fun y hy => hpre y (List.mem_cons_of_mem _ hy))

theorem selectGateway_mem (hash : Int) (gws : List Gateway)
    (h : ∃ g ∈ gws, hash ≤ g.UpperBound) :
    ∃ g ∈ gws, selectGateway hash gws = g.Ip := by
  induction gws with
  | nil => obtain ⟨g, hg, _⟩ := h; simp at hg
  | cons x rest ih =>
    by_cases hx : hash ≤ x.UpperBound
    · exact ⟨x, List.mem_cons_self _ _, by simp [selectGateway, hx]⟩
    · obtain ⟨g, hg, hle⟩ := h
      rcases List.mem_cons.1 hg with rfl | hg
      · exact absurd hle hx
      · obtain ⟨y, hy, hsel⟩ := ih ⟨g, hg, hle⟩
        exact ⟨y, List.mem_cons_of_mem _ hy, by simp [selectGateway, hx, hsel]⟩

theorem rebalance_last_bound (gws : List Gateway)
    (hpos : ∀ g ∈ gws, 0 ≤ g.weight) (h0 : 0 < weightSum gws)
    (h1 : weightSum gws ≤ 2 ^ 33 - 2) :
    ∃ out, RebalanceGateways gws = some out ∧ out.map Gateway.ip = gws.map Gateway.ip ∧
      ∃ h : out ≠ [], (out.getLast h).upperBound = 2 ^ 31 - 1 := by
  refine ⟨_, RebalanceGateways_inRange gws hpos h0 h1, (idealLoop_ips _ gws 0).1, ?_⟩
  have hne : gws ≠ [] := by
    rintro rfl
    simp [weightSum] at h0
  have hne2 : idealLoop (weightSum gws).toNat 0 gws ≠ [] := by
    intro h
    have := (idealLoop_ips (weightSum gws).toNat gws 0).2.2
    rw [h] at this
    exact hne (List.length_eq_zero.1 this.symm)
  refine ⟨hne2, ?_⟩
  rw [idealLoop_getLast, zero_add]
  unfold bucketBound
  rw [round_total _ (by omega)]
  norm_num

/-- Within the range of the 64-bit arithmetic (non-negative weights, total
weight between 1 and `2 ^ 33 - 2`) `RebalanceGateways` returns, keeps the ips in
order, and the upper bound of the last gateway is `2 ^ 31 - 1`. -/
theorem RebalanceGateways_last_inRange (gws : List Gateway)
    (hpos : ∀ g ∈ gws, 0 ≤ g.weight) (h0 : 0 < weightSum gws)
    (h1 : weightSum gws ≤ 2 ^ 33 - 2) :
    ∃ out, RebalanceGateways gws = some out ∧ out.map Gateway.ip = gws.map Gateway.ip ∧
      ∃ h : out ≠ [], (out.getLast h).upperBound = 2 ^ 31 - 1 :=
  rebalance_last_bound gws hpos h0 h1

/-- The two gateways of weights 3 and 2 of the second test: the last bound is
`2 ^ 31 - 1`. -/
theorem RebalanceGateways_last_inRange_witness :
    ∃ out, RebalanceGateways [NewGateway (Addr.ip4 0x01000001) 3,
        NewGateway (Addr.ip4 0x01000002) 2] = some out ∧
      out.map Gateway.ip = [Addr.ip4 0x01000001, Addr.ip4 0x01000002] ∧
      ∃ h : out ≠ [], (out.getLast h).upperBound = 2 ^ 31 - 1 :=
  RebalanceGateways_last_inRange
    [NewGateway (Addr.ip4 0x01000001) 3, NewGateway (Addr.ip4 0x01000002) 2]
    (by decide) (by decide) (by decide)

/-- Within the range of the 64-bit arithmetic, with valid gateway ips,
`balancePacket` on the rebalanced list returns the ip of a gateway of the list
and does not reach its panic, for every packet and every hash function. -/
theorem balancePacket_inRange (sum64 : List Nat → Nat) (p : Packet) (gws : List Gateway)
    (hvalid : ∀ g ∈ gws, g.Ip.IsValid = true)
    (hpos : ∀ g ∈ gws, 0 ≤ g.weight) (h0 : 0 < weightSum gws)
    (h1 : weightSum gws ≤ 2 ^ 33 - 2) :
    ∃ out, RebalanceGateways gws = some out ∧
      ∃ g ∈ gws, balancePacket sum64 p out = Except.ok g.Ip := by
  obtain ⟨out, hout, hips, hne, hlast⟩ := rebalance_last_bound gws hpos h0 h1
  refine ⟨out, hout, ?_⟩
  obtain ⟨g, hg, hsel⟩ := selectGateway_mem (hashPacket sum64 p) out
    ⟨out.getLast hne, List.getLast_mem hne, by
      have := hashPacket_le sum64 p
      unfold Gateway.UpperBound
      omega⟩
  have hmem : g.ip ∈ gws.map Gateway.ip := by
    rw [← hips]
    exact List.mem_map_of_mem _ hg
  obtain ⟨g', hg', hip⟩ := List.mem_map.1 hmem
  refine ⟨g', hg', ?_⟩
  have hv : (selectGateway (hashPacket sum64 p) out).IsValid = true := by
    rw [hsel]
    have := hvalid g' hg'
    unfold Gateway.Ip at this ⊢
    rw [← hip]
    exact this
  unfold balancePacket
  simp only [hv, Bool.not_true]
  simp [hsel, Gateway.Ip, hip]

/-- The three gateways of weight 1 of the first test and the first packet of its
sweep, hashed by the sum of the bytes. -/
theorem balancePacket_inRange_witness :
    ∃ out, RebalanceGateways [NewGateway (Addr.ip4 0x01000001) 1,
        NewGateway (Addr.ip4 0x01000002) 1, NewGateway (Addr.ip4 0x01000003) 1] = some out ∧
      ∃ g ∈ [NewGateway (Addr.ip4 0x01000001) 1, NewGateway (Addr.ip4 0x01000002) 1,
          NewGateway (Addr.ip4 0x01000003) 1],
        balancePacket List.sum ⟨Addr.ip4 0xC0A80101, Addr.ip4 0x0A000001, 0, 65535, 6, false⟩ out
          = Except.ok g.Ip :=
  balancePacket_inRange List.sum ⟨Addr.ip4 0xC0A80101, Addr.ip4 0x0A000001, 0, 65535, 6, false⟩
    [NewGateway (Addr.ip4 0x01000001) 1, NewGateway (Addr.ip4 0x01000002) 1,
      NewGateway (Addr.ip4 0x01000003) 1]
    (by decide) (by decide) (by decide) (by decide)

end Nebula

namespace Nebula

/-! ## Claims on the balancer -/

/-- C1, evaluated at the failing input: a single gateway of weight `2 ^ 33` (a
valid ip, a positive weight).  `uint64(loopWeight) << 31` wraps to `0`, the
rebalancer stores the upper bound `-1`, and `balancePacket` then reaches its
panic for every packet and every hash function. -/
theorem balancePacket_panics_after_overflow :
    RebalanceGateways [NewGateway (Addr.ip4 0x01000001) (2 ^ 33)]
      = some [⟨Addr.ip4 0x01000001, 2 ^ 33, -1⟩] ∧
    (Addr.ip4 0x01000001).IsValid = true ∧
    ∀ (sum64 : List Nat → Nat) (p : Packet),
      balancePacket sum64 p [⟨Addr.ip4 0x01000001, 2 ^ 33, -1⟩] = Except.error bucketPanic := by
  refine ⟨by decide, by decide, ?_⟩
  intro sum64 p
  have h := hashPacket_nonneg sum64 p
  have hn : ¬ hashPacket sum64 p ≤ -1 := by omega
  simp [balancePacket, selectGateway, Gateway.UpperBound, hn, Addr.IsValid]

/-- C2, evaluated at the failing input: a single gateway of weight `2 ^ 33 - 1`.
The shift still fits 64 bits, but `v + d/2` in `divAndRound` wraps, the quotient
is `0` instead of the nearest integer `2 ^ 31`, and the last upper bound is `-1`
instead of `2 ^ 31 - 1`. -/
theorem RebalanceGateways_last_bound_overflow :
    RebalanceGateways [NewGateway (Addr.ip4 0x01000001) (2 ^ 33 - 1)]
      = some [⟨Addr.ip4 0x01000001, 2 ^ 33 - 1, -1⟩] ∧
    divAndRound ((2 ^ 33 - 1) * 2 ^ 31) (2 ^ 33 - 1) = some 0 ∧
    ((2 ^ 33 - 1) * 2 ^ 31 : Nat) < 2 ^ 64 := by
  refine ⟨by decide, by decide, by decide⟩

/-- C3, counterexample: the only gateway has upper bound `2 ^ 31 - 1`, at least
every 31-bit hash, but the zero `Addr` as ip; `balancePacket` panics instead of
returning that ip. -/
theorem balancePacket_zero_ip_panics :
    (∀ (sum64 : List Nat → Nat) (p : Packet),
      hashPacket sum64 p ≤ (Gateway.mk Addr.zero 1 (2 ^ 31 - 1)).UpperBound) ∧
    ∀ (sum64 : List Nat → Nat) (p : Packet),
      balancePacket sum64 p [⟨Addr.zero, 1, 2 ^ 31 - 1⟩] = Except.error bucketPanic := by
  refine ⟨fun sum64 p => hashPacket_le sum64 p, ?_⟩
  intro sum64 p
  have h := hashPacket_le sum64 p
  simp [balancePacket, selectGateway, Gateway.UpperBound, Gateway.Ip, h, Addr.IsValid]

/-- C3, amended: the hash of a packet is a 31-bit number, and when `g` is the
first gateway in declared order whose upper bound is at least the hash,
`balancePacket` returns the ip of `g` if that ip is valid and panics if it is the
zero `Addr`. -/
theorem balancePacket_first_bucket (sum64 : List Nat → Nat) (p : Packet)
    (pre : List Gateway) (g : Gateway) (post : List Gateway)
    (hpre : ∀ x ∈ pre, x.UpperBound < hashPacket sum64 p)
    (hg : hashPacket sum64 p ≤ g.UpperBound) :
    0 ≤ hashPacket sum64 p ∧ hashPacket sum64 p ≤ 2 ^ 31 - 1 ∧
    (g.Ip.IsValid = true → balancePacket sum64 p (pre ++ g :: post) = Except.ok g.Ip) ∧
    (g.Ip.IsValid = false →
      balancePacket sum64 p (pre ++ g :: post) = Except.error bucketPanic) := by
  refine ⟨hashPacket_nonneg sum64 p, hashPacket_le sum64 p, ?_, ?_⟩
  · intro hv
    simp [balancePacket, selectGateway_append _ pre g post hpre hg, hv]
  · intro hv
    simp [balancePacket, selectGateway_append _ pre g post hpre hg, hv]

/-- C3, witness: hash function constantly `2 ^ 30`, gateways of the first test
with their rebalanced bounds; the second gateway is the first whose bound is at
least the hash. -/
theorem balancePacket_first_bucket_witness :
    balancePacket (fun _ => 2 ^ 30) ⟨Addr.ip4 0xC0A80101, Addr.ip4 0x0A000001, 1, 65534, 6, false⟩
      ([⟨Addr.ip4 0x01000001, 1, 715827882⟩] ++
        ⟨Addr.ip4 0x01000002, 1, 1431655764⟩ :: [⟨Addr.ip4 0x01000003, 1, 2147483647⟩])
      = Except.ok (Addr.ip4 0x01000002) :=
  (balancePacket_first_bucket (fun _ => 2 ^ 30)
    ⟨Addr.ip4 0xC0A80101, Addr.ip4 0x0A000001, 1, 65534, 6, false⟩
    [⟨Addr.ip4 0x01000001, 1, 715827882⟩] ⟨Addr.ip4 0x01000002, 1, 1431655764⟩
    [⟨Addr.ip4 0x01000003, 1, 2147483647⟩] (by decide) (by decide)).2.2.1 (by decide)

/-- C4, counterexample: two rebalanced lists whose upper bounds decrease.  With
weights `2, -1` the bounds are `2 ^ 32 - 1, 2 ^ 31 - 1`; with the positive weights
`2 ^ 32, 2 ^ 32` the shift of the second cumulative weight wraps and the bounds
are `2 ^ 30 - 1, -1`. -/
theorem RebalanceGateways_bounds_decrease :
    RebalanceGateways [NewGateway (Addr.ip4 0x01000001) 2, NewGateway (Addr.ip4 0x01000002) (-1)]
      = some [⟨Addr.ip4 0x01000001, 2, 2 ^ 32 - 1⟩, ⟨Addr.ip4 0x01000002, -1, 2 ^ 31 - 1⟩] ∧
    RebalanceGateways
        [NewGateway (Addr.ip4 0x01000001) (2 ^ 32), NewGateway (Addr.ip4 0x01000002) (2 ^ 32)]
      = some [⟨Addr.ip4 0x01000001, 2 ^ 32, 2 ^ 30 - 1⟩, ⟨Addr.ip4 0x01000002, 2 ^ 32, -1⟩] := by
  refine ⟨by decide, by decide⟩

/-- C4, amended: for every gateway list with non-negative weights whose total is
between 1 and `2 ^ 33 - 2`, `RebalanceGateways` returns, keeps the gateways and
their order, and leaves upper bounds that are non-decreasing in declared order
(`Pairwise`: for all positions `i < j`, bound `i` is at most bound `j`). -/
theorem RebalanceGateways_bounds_nondecreasing (gws : List Gateway)
    (hpos : ∀ g ∈ gws, 0 ≤ g.weight) (h0 : 0 < weightSum gws)
    (h1 : weightSum gws ≤ 2 ^ 33 - 2) :
    ∃ out, RebalanceGateways gws = some out ∧
      out.map Gateway.ip = gws.map Gateway.ip ∧
      out.map Gateway.weight = gws.map Gateway.weight ∧
      out.Pairwise (fun a b => a.upperBound ≤ b.upperBound) :=
  ⟨_, RebalanceGateways_inRange gws hpos h0 h1, (idealLoop_ips _ gws 0).1,
    (idealLoop_ips _ gws 0).2.1, idealLoop_pairwise _ gws 0 (le_refl _) hpos⟩

/-- C4, witness: the three gateways of weight 1 of the first test. -/
theorem RebalanceGateways_bounds_nondecreasing_witness :
    ∃ out, RebalanceGateways [NewGateway (Addr.ip4 0x01000001) 1,
        NewGateway (Addr.ip4 0x01000002) 1, NewGateway (Addr.ip4 0x01000003) 1] = some out ∧
      out.map Gateway.ip = [Addr.ip4 0x01000001, Addr.ip4 0x01000002, Addr.ip4 0x01000003] ∧
      out.map Gateway.weight = [1, 1, 1] ∧
      out.Pairwise (fun a b => a.upperBound ≤ b.upperBound) :=
  RebalanceGateways_bounds_nondecreasing
    [NewGateway (Addr.ip4 0x01000001) 1, NewGateway (Addr.ip4 0x01000002) 1,
      NewGateway (Addr.ip4 0x01000003) 1]
    (by decide) (by decide) (by decide)

end Nebula

namespace Nebula

/-! ## Basic facts on the world -/

@[simp] theorem World.emit_trace (w : World) (e : Event) : (w.emit e).trace = w.trace ++ [e] := rfl
@[simp] theorem World.emit_messageCounter (w : World) (e : Event) :
    (w.emit e).messageCounter = w.messageCounter := rfl
@[simp] theorem World.emit_relayIps (w : World) (e : Event) :
    (w.emit e).relayIps = w.relayIps := rfl
@[simp] theorem World.emit_lastRebindCount (w : World) (e : Event) :
    (w.emit e).lastRebindCount = w.lastRebindCount := rfl
@[simp] theorem World.emit_panicked (w : World) (e : Event) :
    (w.emit e).panicked = w.panicked := rfl
@[simp] theorem World.panic_trace (w : World) (m : String) : (w.panic m).trace = w.trace := rfl
@[simp] theorem World.panic_messageCounter (w : World) (m : String) :
    (w.panic m).messageCounter = w.messageCounter := rfl
@[simp] theorem World.panic_relayIps (w : World) (m : String) :
    (w.panic m).relayIps = w.relayIps := rfl
@[simp] theorem World.panic_panicked (w : World) (m : String) :
    (w.panic m).panicked = some m := rfl
@[simp] theorem World.counterAdd_fst (w : World) (cs : Nat) :
    (w.counterAdd cs).1 = (w.messageCounter cs + 1) % 2 ^ 64 := rfl
@[simp] theorem World.counterAdd_trace (w : World) (cs : Nat) :
    (w.counterAdd cs).2.trace = w.trace := rfl
@[simp] theorem World.counterAdd_relayIps (w : World) (cs : Nat) :
    (w.counterAdd cs).2.relayIps = w.relayIps := rfl
@[simp] theorem World.counterAdd_lastRebindCount (w : World) (cs : Nat) :
    (w.counterAdd cs).2.lastRebindCount = w.lastRebindCount := rfl
@[simp] theorem World.counterAdd_panicked (w : World) (cs : Nat) :
    (w.counterAdd cs).2.panicked = w.panicked := rfl
@[simp] theorem World.counterAdd_messageCounter (w : World) (cs : Nat) :
    (w.counterAdd cs).2.messageCounter
      = Function.update w.messageCounter cs ((w.messageCounter cs + 1) % 2 ^ 64) := rfl

@[simp] theorem World.deleteRelay_trace (w : World) (h : Nat) (r : Addr) :
    (w.deleteRelay h r).trace = w.trace ++ [Event.deleteRelay h r] := rfl
@[simp] theorem World.deleteRelay_messageCounter (w : World) (h : Nat) (r : Addr) :
    (w.deleteRelay h r).messageCounter = w.messageCounter := rfl
@[simp] theorem World.deleteRelay_panicked (w : World) (h : Nat) (r : Addr) :
    (w.deleteRelay h r).panicked = w.panicked := rfl

theorem rebindQuery_trace (env : Env) (t hostinfo : Nat) (w : World) :
    (rebindQuery env t hostinfo w).trace = w.trace ++ rebindEvents env t hostinfo w := by
  unfold rebindQuery rebindEvents
  split_ifs <;> simp

@[simp] theorem rebindQuery_messageCounter (env : Env) (t hostinfo : Nat) (w : World) :
    (rebindQuery env t hostinfo w).messageCounter = w.messageCounter := by
  unfold rebindQuery
  split_ifs <;> simp

@[simp] theorem rebindQuery_relayIps (env : Env) (t hostinfo : Nat) (w : World) :
    (rebindQuery env t hostinfo w).relayIps = w.relayIps := by
  unfold rebindQuery
  split_ifs <;> simp

@[simp] theorem rebindQuery_panicked (env : Env) (t hostinfo : Nat) (w : World) :
    (rebindQuery env t hostinfo w).panicked = w.panicked := by
  unfold rebindQuery
  split_ifs <;> simp

theorem rebindEvents_counterAdd (env : Env) (t hostinfo : Nat) (w : World) (cs : Nat) (e1 e2 : Event) :
    rebindEvents env t hostinfo (((w.counterAdd cs).2.emit e1).emit e2)
      = rebindEvents env t hostinfo w := rfl

/-! ## The direct path of the emitter -/

theorem deliver_direct (env : Env) (hostinfo : Nat) (remote : AddrPort) (nb : Bytes)
    (fullOut : Slice) (q : Nat) (r : Except String Slice) (w : World)
    (hdirect : remote.IsValid = true ∨ (env.hostinfo hostinfo).remote.IsValid = true) :
    deliver env hostinfo remote nb fullOut q r w =
      match r with
      | Except.error _ => w
      | Except.ok enc =>
        w.emit (Event.udpWrite q enc.data
          (if remote.IsValid then remote else (env.hostinfo hostinfo).remote)) := by
  cases r with
  | error e => rfl
  | ok enc =>
    by_cases h : remote.IsValid = true
    · simp [deliver, h]
    · have h2 : (env.hostinfo hostinfo).remote.IsValid = true := by
        rcases hdirect with h' | h'
        · exact absurd h' h
        · exact h'
      simp [deliver, h, h2]

theorem sendNoMetrics_direct (env : Env) (t st ci hostinfo : Nat) (remote : AddrPort)
    (p nb : Bytes) (out : Slice) (q : Nat) (w : World)
    (hdirect : remote.IsValid = true ∨ (env.hostinfo hostinfo).remote.IsValid = true)
    (hkey : env.eKeyIsNil ci = false) :
    sendNoMetrics env t st ci hostinfo remote p nb out q w
      = encodeAndEncrypt env t st ci hostinfo remote p nb out out q w := by
  have huse : (!remote.IsValid && !(env.hostinfo hostinfo).remote.IsValid) = false := by
    rcases hdirect with h | h <;> simp [h]
  simp [sendNoMetrics, hkey, huse]

theorem encodeAndEncrypt_direct_trace (env : Env) (t st ci hostinfo : Nat) (remote : AddrPort)
    (p nb : Bytes) (out fullOut : Slice) (q : Nat) (w : World)
    (hdirect : remote.IsValid = true ∨ (env.hostinfo hostinfo).remote.IsValid = true) :
    (encodeAndEncrypt env t st ci hostinfo remote p nb out fullOut q w).trace
      = w.trace ++ directEvents env t st ci hostinfo
          (if remote.IsValid then remote else (env.hostinfo hostinfo).remote) p nb out q w := by
  unfold encodeAndEncrypt directEvents
  simp only [deliver_direct _ _ _ _ _ _ _ _ hdirect]
  cases h : w.counterAdd ci with
  | mk c w1 =>
    have hc : c = (w.messageCounter ci + 1) % 2 ^ 64 := by
      have := congrArg Prod.fst h
      simpa using this.symm
    have hw : w1 = (w.counterAdd ci).2 := by rw [h]
    subst hc
    simp only []
    cases env.EncryptDanger ci
      (env.Encode out env.Version t st (env.hostinfo hostinfo).remoteIndexId
        ((w.messageCounter ci + 1) % 2 ^ 64))
      (env.Encode out env.Version t st (env.hostinfo hostinfo).remoteIndexId
        ((w.messageCounter ci + 1) % 2 ^ 64)).data p ((w.messageCounter ci + 1) % 2 ^ 64) nb with
    | error e =>
      simp only [World.emit_trace, rebindQuery_trace, hw, World.counterAdd_trace,
        rebindEvents_counterAdd, List.append_assoc, List.singleton_append, List.cons_append,
        List.nil_append, List.append_nil]
    | ok enc =>
      simp only [World.emit_trace, rebindQuery_trace, hw, World.counterAdd_trace,
        rebindEvents_counterAdd, List.append_assoc, List.singleton_append, List.cons_append,
        List.nil_append, List.append_nil]

end Nebula

namespace Nebula

/-! ## Continuations of the trace -/

theorem adds_refl (P : Event → Prop) (w : World) : Adds P w w :=
  ⟨[], by simp, by simp⟩

theorem adds_of_trace_eq {P : Event → Prop} {w v : World} (h : v.trace = w.trace) :
    Adds P w v :=
  ⟨[], by simp [h], by simp⟩

theorem adds_trans {P : Event → Prop} {w w1 w2 : World} (h1 : Adds P w w1) (h2 : Adds P w1 w2) :
    Adds P w w2 := by
  obtain ⟨e1, ht1, hp1⟩ := h1
  obtain ⟨e2, ht2, hp2⟩ := h2
  refine ⟨e1 ++ e2, by rw [ht2, ht1, List.append_assoc], ?_⟩
  intro e he
  rcases List.mem_append.1 he with h | h
  · exact hp1 e h
  · exact hp2 e h

theorem adds_emit {P : Event → Prop} (w : World) (e : Event) (h : P e) : Adds P w (w.emit e) :=
  ⟨[e], rfl, by simpa using h⟩

theorem adds_mono {P Q : Event → Prop} {w w' : World} (h : Adds P w w')
    (hpq : ∀ e, P e → Q e) : Adds Q w w' := by
  obtain ⟨evs, ht, hp⟩ := h
  exact ⟨evs, ht, fun e he => hpq e (hp e he)⟩

theorem adds_emit_right {P : Event → Prop} {w0 w : World} {e : Event} (h : Adds P w0 w)
    (he : P e) : Adds P w0 (w.emit e) :=
  adds_trans h (adds_emit w e he)

theorem adds_same_trace {P : Event → Prop} {w0 w w' : World} (h : Adds P w0 w)
    (ht : w'.trace = w.trace) : Adds P w0 w' :=
  adds_trans h (adds_of_trace_eq ht)

theorem relayWrite_adds (env : Env) (via : Nat) (relay : Relay) (r : Except String Slice)
    (P : Event → Prop) (hP : ∀ e, e.isEmitter = true → e.plaintext = none → P e)
    {w0 w : World} (h : Adds P w0 w) :
    Adds P w0 (relayWrite env via relay r w) := by
  cases r with
  | error e => exact h
  | ok out =>
    unfold relayWrite
    exact adds_emit_right (adds_emit_right h (hP _ rfl rfl)) (hP _ rfl rfl)

theorem SendVia_adds (env : Env) (via : Nat) (relay : Relay) (ad nb : Bytes) (out : Slice)
    (nocopy : Bool) (P : Event → Prop)
    (hP : ∀ e, e.isEmitter = true → (e.plaintext = none ∨ e.plaintext = some []) → P e)
    {w0 w : World} (h : Adds P w0 w) :
    Adds P w0 (SendVia env via relay ad nb out nocopy w) := by
  unfold SendVia
  have h0 : Adds P w0 (w.counterAdd (env.hostinfo via).ConnectionState).2 :=
    adds_same_trace h rfl
  have h1 := adds_emit_right (adds_emit_right h0
    (hP (Event.headerEncode (env.hostinfo via).ConnectionState env.Message env.MessageRelay
      relay.RemoteIndex (w.counterAdd (env.hostinfo via).ConnectionState).1) rfl (Or.inl rfl)))
    (hP (Event.connOut (env.hostinfo via).localIndexId) rfl (Or.inl rfl))
  simp only []
  split_ifs
  · exact h1
  all_goals
    apply relayWrite_adds env via relay _ P (fun e h1 h2 => hP e h1 (Or.inl h2))
    exact adds_emit_right h1 (hP _ rfl (Or.inr rfl))

theorem relayLoop_adds (env : Env) (hostinfo : Nat) (out : Slice) (nb : Bytes) (fullOut : Slice)
    (P : Event → Prop)
    (hP : ∀ e, e.isEmitter = true → (e.plaintext = none ∨ e.plaintext = some []) → P e)
    (w0 : World) :
    ∀ (relays : List Addr) (w : World), Adds P w0 w →
      Adds P w0 (relayLoop env hostinfo out nb fullOut relays w) := by
  intro relays
  induction relays with
  | nil => intro w h; exact h
  | cons relayIP rest ih =>
    intro w h
    have h1 := adds_emit_right h
      (hP (Event.queryRelay (env.hostinfo hostinfo).vpnIp relayIP) rfl (Or.inl rfl))
    unfold relayLoop
    simp only []
    split
    · apply ih
      exact adds_trans h1 ⟨[Event.deleteRelay hostinfo relayIP], rfl, by
        intro e he
        rw [List.mem_singleton.1 he]
        exact hP _ rfl (Or.inl rfl)⟩
    · split
      · exact adds_same_trace h1 rfl
      · exact SendVia_adds env _ _ _ _ _ _ P hP h1

theorem deliver_adds (env : Env) (hostinfo : Nat) (remote : AddrPort) (nb : Bytes)
    (fullOut : Slice) (q : Nat) (r : Except String Slice) (P : Event → Prop)
    (hP : ∀ e, e.isEmitter = true → (e.plaintext = none ∨ e.plaintext = some []) → P e)
    {w0 w : World} (h : Adds P w0 w) :
    Adds P w0 (deliver env hostinfo remote nb fullOut q r w) := by
  cases r with
  | error e => exact h
  | ok out =>
    unfold deliver
    split_ifs
    · exact adds_emit_right h (hP _ rfl (Or.inl rfl))
    · exact adds_emit_right h (hP _ rfl (Or.inl rfl))
    · exact relayLoop_adds env hostinfo out nb fullOut P hP w0 _ w h

theorem rebindQuery_adds (env : Env) (t hostinfo : Nat) (P : Event → Prop)
    (hP : ∀ e, e.isEmitter = true → (e.plaintext = none ∨ e.plaintext = some []) → P e)
    {w0 w : World} (h : Adds P w0 w) :
    Adds P w0 (rebindQuery env t hostinfo w) := by
  unfold rebindQuery
  split_ifs
  · refine adds_same_trace (adds_emit_right h (by exact hP _ rfl (Or.inl rfl))) rfl
  · exact h

theorem encodeAndEncrypt_adds (env : Env) (t st ci hostinfo : Nat) (remote : AddrPort)
    (p nb : Bytes) (out fullOut : Slice) (q : Nat) (P : Event → Prop)
    (hP : ∀ e, e.isEmitter = true →
      (e.plaintext = none ∨ e.plaintext = some [] ∨ e.plaintext = some p) → P e)
    {w0 w : World} (h : Adds P w0 w) :
    Adds P w0 (encodeAndEncrypt env t st ci hostinfo remote p nb out fullOut q w) := by
  have hP' : ∀ e, e.isEmitter = true → (e.plaintext = none ∨ e.plaintext = some []) → P e := by
    intro e h1 h2
    rcases h2 with h2 | h2
    · exact hP e h1 (Or.inl h2)
    · exact hP e h1 (Or.inr (Or.inl h2))
  unfold encodeAndEncrypt
  simp only []
  apply deliver_adds env hostinfo remote nb _ q _ P hP'
  refine adds_emit_right ?_ (by exact hP _ rfl (Or.inr (Or.inr rfl)))
  apply rebindQuery_adds env t hostinfo P hP'
  refine adds_emit_right ?_ (by exact hP _ rfl (Or.inl rfl))
  refine adds_emit_right ?_ (by exact hP _ rfl (Or.inl rfl))
  exact adds_same_trace h rfl

theorem sendNoMetrics_adds (env : Env) (t st ci hostinfo : Nat) (remote : AddrPort)
    (p nb : Bytes) (out : Slice) (q : Nat) (P : Event → Prop)
    (hP : ∀ e, e.isEmitter = true →
      (e.plaintext = none ∨ e.plaintext = some [] ∨ e.plaintext = some p) → P e)
    {w0 w : World} (h : Adds P w0 w) :
    Adds P w0 (sendNoMetrics env t st ci hostinfo remote p nb out q w) := by
  unfold sendNoMetrics
  split_ifs
  · exact h
  · simp only []
    split
    · exact adds_same_trace h rfl
    · exact encodeAndEncrypt_adds env t st ci hostinfo remote p nb _ _ q P hP h

end Nebula

namespace Nebula

/-! ## The session gate -/

theorem lookups_append (a b : List Event) : lookups (a ++ b) = lookups a ++ lookups b := by
  induction a with
  | nil => rfl
  | cons e rest ih =>
    cases e <;> simp [lookups, ih]

theorem gateStep_refl (w : World) : GateStep [] w w :=
  ⟨⟨[], by simp, rfl, by simp⟩, rfl, rfl, rfl⟩

theorem gateStep_trans {a b : List Addr} {w w1 w2 : World} (h1 : GateStep a w w1)
    (h2 : GateStep b w1 w2) : GateStep (a ++ b) w w2 := by
  obtain ⟨⟨e1, ht1, hl1, hg1⟩, hc1, hr1, hp1⟩ := h1
  obtain ⟨⟨e2, ht2, hl2, hg2⟩, hc2, hr2, hp2⟩ := h2
  refine ⟨⟨e1 ++ e2, by rw [ht2, ht1, List.append_assoc], by rw [lookups_append, hl1, hl2], ?_⟩,
    hc2.trans hc1, hr2.trans hr1, hp2.trans hp1⟩
  intro e he
  rcases List.mem_append.1 he with h | h
  · exact hg1 e h
  · exact hg2 e h

theorem GetOrHandshake_snd (env : Env) (ip : Addr) (cb : Option (Addr → World → World))
    (w : World) :
    (GetOrHandshake env ip cb w).2
      = ((env.handshakeManager ip).hostinfo, (env.handshakeManager ip).ready) := rfl

theorem GetOrHandshake_gate (env : Env) (ip : Addr) (packet : Option Bytes) (w : World) :
    GateStep [ip] w (GetOrHandshake env ip (packet.map (cacheCallback env)) w).1 := by
  unfold GetOrHandshake
  cases packet with
  | none =>
    simp only [Option.map_none']
    split_ifs <;>
    exact ⟨⟨[Event.getOrHandshake ip], rfl, rfl, by simp [Event.isGate, Event.isLookup]⟩,
      rfl, rfl, rfl⟩
  | some p =>
    simp only [Option.map_some']
    split_ifs
    · exact ⟨⟨[Event.getOrHandshake ip, Event.cachePacket ip env.Message 0 p],
        by simp [cacheCallback], rfl,
        by simp [Event.isGate, Event.isLookup, Event.isCachePacket]⟩, rfl, rfl, rfl⟩
    · exact ⟨⟨[Event.getOrHandshake ip], rfl, rfl, by simp [Event.isGate, Event.isLookup]⟩,
        rfl, rfl, rfl⟩

/-- A lookup that answers ready adds no cache callback when the manager only
runs the callback for lookups it answers not ready. -/
theorem GetOrHandshake_ready_adds (env : Env) (ip : Addr) (packet : Option Bytes)
    (hcontract : (env.handshakeManager ip).callback = true →
      (env.handshakeManager ip).ready = false)
    (hready : (env.handshakeManager ip).ready = true) {w0 w : World}
    (h : Adds (fun e => e.isLookup = true) w0 w) :
    Adds (fun e => e.isLookup = true) w0
      (GetOrHandshake env ip (packet.map (cacheCallback env)) w).1 := by
  have hcb : (env.handshakeManager ip).callback = false := by
    cases hc : (env.handshakeManager ip).callback
    · rfl
    · rw [hcontract hc] at hready
      exact absurd hready (by decide)
  unfold GetOrHandshake
  simp only [hcb]
  exact adds_emit_right h rfl

theorem fallbackIps_cons_skip (gatewayIp : Addr) (g : Gateway) (rest : List Gateway)
    (h : g.Ip = gatewayIp) : fallbackIps gatewayIp (g :: rest) = fallbackIps gatewayIp rest := by
  simp [fallbackIps, h]

theorem fallbackIps_cons_keep (gatewayIp : Addr) (g : Gateway) (rest : List Gateway)
    (h : g.Ip ≠ gatewayIp) :
    fallbackIps gatewayIp (g :: rest) = g.Ip :: fallbackIps gatewayIp rest := by
  simp [fallbackIps, h]

theorem fallbackLoop_spec (env : Env) (packet : Option Bytes) (gatewayIp : Addr) :
    ∀ (gws : List Gateway) (w : World) (h : Option Nat) (ok : Bool),
      GateStep (triedIps env (fallbackIps gatewayIp gws)) w
        (fallbackLoop env (packet.map (cacheCallback env)) gatewayIp gws w h ok).1 ∧
      (fallbackLoop env (packet.map (cacheCallback env)) gatewayIp gws w h ok).2
        = fallbackAnswer env (fallbackIps gatewayIp gws) (h, ok) := by
  intro gws
  induction gws with
  | nil =>
    intro w h ok
    exact ⟨gateStep_refl w, rfl⟩
  | cons g rest ih =>
    intro w h ok
    by_cases hskip : g.Ip = gatewayIp
    · rw [fallbackIps_cons_skip _ _ _ hskip]
      simp only [fallbackLoop, hskip, if_true]
      have := ih w h ok
      simpa [hskip] using this
    · rw [fallbackIps_cons_keep _ _ _ hskip]
      have hg := GetOrHandshake_gate env g.Ip packet w
      simp only [fallbackLoop, if_neg hskip]
      cases hr : (env.handshakeManager g.Ip).ready with
      | true =>
        have h2 : (GetOrHandshake env g.Ip (packet.map (cacheCallback env)) w).2.2 = true := by
          rw [GetOrHandshake_snd]; exact hr
        simp only [h2, if_true]
        refine ⟨?_, ?_⟩
        · simpa [triedIps, hr] using hg
        · have h3 : (GetOrHandshake env g.Ip (packet.map (cacheCallback env)) w).2.1
              = (env.handshakeManager g.Ip).hostinfo := rfl
          rw [h3]
          simp [fallbackAnswer, hr]
      | false =>
        have h2 : (GetOrHandshake env g.Ip (packet.map (cacheCallback env)) w).2.2 = false := by
          rw [GetOrHandshake_snd]; exact hr
        simp only [h2]
        obtain ⟨ih1, ih2⟩ := ih (GetOrHandshake env g.Ip (packet.map (cacheCallback env)) w).1
          (GetOrHandshake env g.Ip (packet.map (cacheCallback env)) w).2.1 false
        refine ⟨?_, ?_⟩
        · have := gateStep_trans hg ih1
          simpa [triedIps, hr] using this
        · simp only [Bool.false_eq_true, if_false]
          rw [ih2, GetOrHandshake_snd]
          simp only [fallbackAnswer, List.find?_cons, hr]
          cases hf : List.find? (fun ip => (env.handshakeManager ip).ready)
              (fallbackIps gatewayIp rest) with
          | some ip => rfl
          | none =>
            cases hl : fallbackIps gatewayIp rest with
            | nil => simp
            | cons a l =>
              rw [List.getLast?_eq_getLast (a :: l) (by simp),
                List.getLast?_eq_getLast (g.Ip :: a :: l) (by simp)]
              simp

end Nebula

namespace Nebula

/-! ## Routing -/

theorem gateStep_adds {ips : List Addr} {w w' : World} (h : GateStep ips w w') :
    Adds (fun e => e.isGate = true) w w' := by
  obtain ⟨⟨evs, ht, _, hg⟩, _⟩ := h
  exact ⟨evs, ht, hg⟩

theorem fallbackAnswer_ready (env : Env) (ips : List Addr) (start : Option Nat × Bool)
    (hstart : start.2 = false) (h : (fallbackAnswer env ips start).2 = true) :
    ∃ ip ∈ ips, (env.handshakeManager ip).ready = true := by
  unfold fallbackAnswer at h
  cases hf : List.find? (fun ip => (env.handshakeManager ip).ready) ips with
  | some ip =>
    exact ⟨ip, List.mem_of_find?_eq_some hf, by simpa using List.find?_some hf⟩
  | none =>
    rw [hf] at h
    cases hl : ips.getLast? with
    | some ip => rw [hl] at h; simp at h
    | none => rw [hl] at h; simp only [] at h; rw [hstart] at h; exact absurd h (by decide)

theorem mem_fallbackIps (gatewayIp : Addr) (gws : List Gateway) (ip : Addr)
    (h : ip ∈ fallbackIps gatewayIp gws) : ∃ g ∈ gws, g.Ip ≠ gatewayIp ∧ g.Ip = ip := by
  unfold fallbackIps at h
  obtain ⟨g, hg, rfl⟩ := List.mem_map.1 h
  obtain ⟨hmem, hne⟩ := List.mem_filter.1 hg
  exact ⟨g, hmem, by simpa using hne, rfl⟩

theorem routing_inVpn (env : Env) (fwPacket : Packet) (cb : Option (Addr → World → World))
    (w : World) (hin : env.myVpnNetContains fwPacket.RemoteIP = true) :
    getOrHandshakeConsiderRouting env fwPacket cb w
      = GetOrHandshake env fwPacket.RemoteIP cb w := by
  simp [getOrHandshakeConsiderRouting, hin]

theorem routing_none (env : Env) (fwPacket : Packet) (cb : Option (Addr → World → World))
    (w : World) (hin : env.myVpnNetContains fwPacket.RemoteIP = false)
    (hroutes : env.RoutesFor fwPacket.RemoteIP = []) :
    getOrHandshakeConsiderRouting env fwPacket cb w = (w, none, false) := by
  simp [getOrHandshakeConsiderRouting, hin, hroutes]

theorem routing_single (env : Env) (fwPacket : Packet) (cb : Option (Addr → World → World))
    (w : World) (g : Gateway) (hin : env.myVpnNetContains fwPacket.RemoteIP = false)
    (hroutes : env.RoutesFor fwPacket.RemoteIP = [g]) :
    getOrHandshakeConsiderRouting env fwPacket cb w = GetOrHandshake env g.Ip cb w := by
  simp [getOrHandshakeConsiderRouting, hin, hroutes]

theorem routing_multi_panic (env : Env) (fwPacket : Packet) (cb : Option (Addr → World → World))
    (w : World) (msg : String) (hin : env.myVpnNetContains fwPacket.RemoteIP = false)
    (hmulti : 2 ≤ (env.RoutesFor fwPacket.RemoteIP).length)
    (hbal : balancePacket env.sum64 fwPacket (env.RoutesFor fwPacket.RemoteIP)
      = Except.error msg) :
    getOrHandshakeConsiderRouting env fwPacket cb w = (w.panic msg, none, false) := by
  rcases hroutes : env.RoutesFor fwPacket.RemoteIP with _ | ⟨g1, _ | ⟨g2, rest⟩⟩
  · rw [hroutes] at hmulti; simp at hmulti
  · rw [hroutes] at hmulti; simp at hmulti
  · rw [hroutes] at hbal
    simp [getOrHandshakeConsiderRouting, hin, hroutes, hbal]

theorem routing_multi (env : Env) (fwPacket : Packet) (cb : Option (Addr → World → World))
    (w : World) (gatewayIp : Addr) (hin : env.myVpnNetContains fwPacket.RemoteIP = false)
    (hmulti : 2 ≤ (env.RoutesFor fwPacket.RemoteIP).length)
    (hbal : balancePacket env.sum64 fwPacket (env.RoutesFor fwPacket.RemoteIP)
      = Except.ok gatewayIp) :
    getOrHandshakeConsiderRouting env fwPacket cb w
      = if (env.handshakeManager gatewayIp).ready = true then GetOrHandshake env gatewayIp cb w
        else fallbackLoop env cb gatewayIp (env.RoutesFor fwPacket.RemoteIP)
          (GetOrHandshake env gatewayIp cb w).1 none false := by
  rcases hroutes : env.RoutesFor fwPacket.RemoteIP with _ | ⟨g1, _ | ⟨g2, rest⟩⟩
  · rw [hroutes] at hmulti; simp at hmulti
  · rw [hroutes] at hmulti; simp at hmulti
  · rw [hroutes] at hbal
    simp only [getOrHandshakeConsiderRouting, hin, hroutes, hbal]
    by_cases hr : (env.handshakeManager gatewayIp).ready = true
    · have h2 : (GetOrHandshake env gatewayIp cb w).2.2 = true := hr
      simp only [h2, hr, if_true]
      exact Prod.ext rfl (Prod.ext rfl h2.symm)
    · have h2 : (GetOrHandshake env gatewayIp cb w).2.2 = false := by
        simpa [GetOrHandshake_snd] using hr
      simp [h2, hr]

/-- The shape of a route: no gateway, one, or at least two. -/
theorem route_shape (gws : List Gateway) :
    gws = [] ∨ (∃ g, gws = [g]) ∨ 2 ≤ gws.length := by
  rcases gws with _ | ⟨g1, _ | ⟨g2, rest⟩⟩
  · exact Or.inl rfl
  · exact Or.inr (Or.inl ⟨g1, rfl⟩)
  · exact Or.inr (Or.inr (by simp))

/-- A routing that answers ready added lookups only, no cache callback, when the
manager runs the callback only for lookups it answers not ready and the
fallback loop meets no ready gateway. -/
theorem routing_ready_adds (env : Env) (fwPacket : Packet) (packet : Option Bytes) (w : World)
    (hcontract : ∀ ip, (env.handshakeManager ip).callback = true →
      (env.handshakeManager ip).ready = false)
    (hfb : ∀ gatewayIp, env.myVpnNetContains fwPacket.RemoteIP = false →
      2 ≤ (env.RoutesFor fwPacket.RemoteIP).length →
      balancePacket env.sum64 fwPacket (env.RoutesFor fwPacket.RemoteIP) = Except.ok gatewayIp →
      (env.handshakeManager gatewayIp).ready = false →
      ∀ g ∈ env.RoutesFor fwPacket.RemoteIP, g.Ip ≠ gatewayIp →
        (env.handshakeManager g.Ip).ready = false)
    (hready : (getOrHandshakeConsiderRouting env fwPacket
      (packet.map (cacheCallback env)) w).2.2 = true) :
    Adds (fun e => e.isLookup = true) w
      (getOrHandshakeConsiderRouting env fwPacket (packet.map (cacheCallback env)) w).1 := by
  cases hin : env.myVpnNetContains fwPacket.RemoteIP with
  | true =>
    rw [routing_inVpn _ _ _ _ hin] at hready ⊢
    exact GetOrHandshake_ready_adds env _ packet (hcontract _) hready (adds_refl _ w)
  | false =>
    rcases route_shape (env.RoutesFor fwPacket.RemoteIP) with hroutes | ⟨g, hroutes⟩ | hmulti
    · rw [routing_none _ _ _ _ hin hroutes]
      exact adds_refl _ w
    · rw [routing_single _ _ _ _ g hin hroutes] at hready ⊢
      exact GetOrHandshake_ready_adds env _ packet (hcontract _) hready (adds_refl _ w)
    · cases hbal : balancePacket env.sum64 fwPacket (env.RoutesFor fwPacket.RemoteIP) with
      | error msg =>
        rw [routing_multi_panic _ _ _ _ msg hin hmulti hbal] at hready
        simp at hready
      | ok gatewayIp =>
        rw [routing_multi _ _ _ _ gatewayIp hin hmulti hbal] at hready ⊢
        by_cases hok : (env.handshakeManager gatewayIp).ready = true
        · rw [if_pos hok] at hready ⊢
          exact GetOrHandshake_ready_adds env _ packet (hcontract _) hok (adds_refl _ w)
        · exfalso
          rw [if_neg hok, (fallbackLoop_spec env packet gatewayIp _ _ _ _).2] at hready
          obtain ⟨ip, hip, hr⟩ := fallbackAnswer_ready env _ _ rfl hready
          obtain ⟨g, hg, hne, rfl⟩ := mem_fallbackIps _ _ _ hip
          have hnot : (env.handshakeManager gatewayIp).ready = false := by
            simpa using hok
          rw [hfb gatewayIp hin hmulti hbal hnot g hg hne] at hr
          exact absurd hr (by decide)

/-- Either `balancePacket` panicked and nothing else happened, or the world went
on by events of the gate only. -/
theorem routing_cases (env : Env) (fwPacket : Packet) (packet : Option Bytes) (w : World) :
    (∃ msg, getOrHandshakeConsiderRouting env fwPacket (packet.map (cacheCallback env)) w
        = (w.panic msg, none, false)) ∨
    ∃ ips, GateStep ips w
      (getOrHandshakeConsiderRouting env fwPacket (packet.map (cacheCallback env)) w).1 := by
  cases hin : env.myVpnNetContains fwPacket.RemoteIP with
  | true =>
    rw [routing_inVpn _ _ _ _ hin]
    exact Or.inr ⟨_, GetOrHandshake_gate env _ packet w⟩
  | false =>
    rcases route_shape (env.RoutesFor fwPacket.RemoteIP) with hroutes | ⟨g, hroutes⟩ | hmulti
    · rw [routing_none _ _ _ _ hin hroutes]
      exact Or.inr ⟨_, gateStep_refl w⟩
    · rw [routing_single _ _ _ _ g hin hroutes]
      exact Or.inr ⟨_, GetOrHandshake_gate env _ packet w⟩
    · cases hbal : balancePacket env.sum64 fwPacket (env.RoutesFor fwPacket.RemoteIP) with
      | error msg => exact Or.inl ⟨msg, routing_multi_panic _ _ _ _ msg hin hmulti hbal⟩
      | ok gatewayIp =>
        rw [routing_multi _ _ _ _ gatewayIp hin hmulti hbal]
        have hg := GetOrHandshake_gate env gatewayIp packet w
        split_ifs
        · exact Or.inr ⟨_, hg⟩
        · exact Or.inr ⟨_, gateStep_trans hg (fallbackLoop_spec env packet gatewayIp _ _ _ _).1⟩

end Nebula

namespace Nebula

/-! ## Message counters -/

theorem headerCounters_append (cs : Nat) (a b : List Event) :
    headerCounters cs (a ++ b) = headerCounters cs a ++ headerCounters cs b := by
  simp [headerCounters]

theorem cipherCounters_append (cs : Nat) (a b : List Event) :
    cipherCounters cs (a ++ b) = cipherCounters cs a ++ cipherCounters cs b := by
  simp [cipherCounters]

theorem counterStep_refl (cs : Nat) (w : World) : CounterStep cs 0 w w :=
  ⟨[], by simp, by simp, by simp [headerCounters], by simp [cipherCounters]⟩

theorem counterStep_trans {cs n m : Nat} {w w1 w2 : World} (h1 : CounterStep cs n w w1)
    (h2 : CounterStep cs m w1 w2) : CounterStep cs (n + m) w w2 := by
  obtain ⟨e1, ht1, hc1, hh1, hs1⟩ := h1
  obtain ⟨e2, ht2, hc2, hh2, hs2⟩ := h2
  refine ⟨e1 ++ e2, by rw [ht2, ht1, List.append_assoc], by rw [hc2, hc1, Nat.add_assoc], ?_, ?_⟩
  · rw [headerCounters_append, hh1, hh2, hc1, Nat.add_right_comm, List.range'_append_1,
      Nat.add_comm m n]
  · rw [headerCounters_append, cipherCounters_append]
    exact List.Sublist.append hs1 hs2

/-- A step that adds events without a counter of session `cs`. -/
theorem counterStep_neutral {c : Nat} {w v : World} (evs : List Event)
    (ht : v.trace = w.trace ++ evs) (hc : v.messageCounter c = w.messageCounter c)
    (hh : headerCounters c evs = []) (hcip : cipherCounters c evs = []) :
    CounterStep c 0 w v :=
  ⟨evs, ht, by simp [hc], by simp [hh], by simp [hcip]⟩

/-- A step that increments the counter of `cs` once, encodes the new value in
one header and hands it to the cipher at most once. -/
theorem counterStep_bump {c : Nat} {w v : World} (evs : List Event)
    (ht : v.trace = w.trace ++ evs) (hc : v.messageCounter c = w.messageCounter c + 1)
    (hh : headerCounters c evs = [w.messageCounter c + 1])
    (hcip : cipherCounters c evs = [w.messageCounter c + 1] ∨ cipherCounters c evs = []) :
    CounterStep c 1 w v := by
  refine ⟨evs, ht, hc, by simp [hh, List.range'], ?_⟩
  rcases hcip with h | h
  · rw [h, hh]
  · rw [h]; exact List.nil_sublist _

theorem relayWrite_counter (env : Env) (via : Nat) (relay : Relay) (r : Except String Slice)
    {cs n : Nat} {w0 w : World} (h : CounterStep cs n w0 w) :
    CounterStep cs n w0 (relayWrite env via relay r w) := by
  cases r with
  | error e => exact h
  | ok out =>
    exact counterStep_trans h (counterStep_neutral (w := w)
      (v := relayWrite env via relay (Except.ok out) w)
      [Event.udpWrite 0 out.data (env.hostinfo via).remote, Event.relayUsed relay.LocalIndex]
      (by simp [relayWrite]) rfl rfl rfl)

theorem SendVia_counter (env : Env) (via : Nat) (relay : Relay) (ad nb : Bytes) (out : Slice)
    (nocopy : Bool) (cs : Nat) (w : World) (hw : w.messageCounter cs + 1 < 2 ^ 64) :
    ∃ m, m ≤ 1 ∧ CounterStep cs m w (SendVia env via relay ad nb out nocopy w) := by
  unfold SendVia
  simp only []
  by_cases hcs : (env.hostinfo via).ConnectionState = cs
  · have hc : (w.messageCounter cs + 1) % 18446744073709551616 = w.messageCounter cs + 1 :=
      Nat.mod_eq_of_lt hw
    refine ⟨1, le_refl _, ?_⟩
    rw [hcs]
    split_ifs
    · exact counterStep_bump
        [Event.headerEncode cs env.Message env.MessageRelay relay.RemoteIndex
          (w.counterAdd cs).1, Event.connOut (env.hostinfo via).localIndexId]
        (by simp) (by simp [hc])
        (by simp [headerCounters, Event.headerCounter, hc])
        (Or.inr (by simp [cipherCounters, Event.cipherCounter]))
    all_goals
      apply relayWrite_counter
      exact counterStep_bump
        [Event.headerEncode cs env.Message env.MessageRelay relay.RemoteIndex
          (w.counterAdd cs).1, Event.connOut (env.hostinfo via).localIndexId,
          Event.encrypt cs [] (w.counterAdd cs).1]
        (by simp) (by simp [hc])
        (by simp [headerCounters, Event.headerCounter, hc])
        (Or.inl (by simp [cipherCounters, Event.cipherCounter, hc]))
  · refine ⟨0, Nat.zero_le _, ?_⟩
    split_ifs
    · exact counterStep_neutral
        [Event.headerEncode (env.hostinfo via).ConnectionState env.Message env.MessageRelay
          relay.RemoteIndex (w.counterAdd (env.hostinfo via).ConnectionState).1,
          Event.connOut (env.hostinfo via).localIndexId]
        (by simp) (by simp [Function.update_noteq (Ne.symm hcs)])
        (by simp [headerCounters, Event.headerCounter, hcs])
        (by simp [cipherCounters, Event.cipherCounter])
    all_goals
      apply relayWrite_counter
      exact counterStep_neutral
        [Event.headerEncode (env.hostinfo via).ConnectionState env.Message env.MessageRelay
          relay.RemoteIndex (w.counterAdd (env.hostinfo via).ConnectionState).1,
          Event.connOut (env.hostinfo via).localIndexId,
          Event.encrypt (env.hostinfo via).ConnectionState []
            (w.counterAdd (env.hostinfo via).ConnectionState).1]
        (by simp) (by simp [Function.update_noteq (Ne.symm hcs)])
        (by simp [headerCounters, Event.headerCounter, hcs])
        (by simp [cipherCounters, Event.cipherCounter, hcs])

theorem relayLoop_counter (env : Env) (hostinfo : Nat) (out : Slice) (nb : Bytes)
    (fullOut : Slice) (cs : Nat) :
    ∀ (relays : List Addr) (w : World), w.messageCounter cs + 1 < 2 ^ 64 →
      ∃ m, m ≤ 1 ∧ CounterStep cs m w (relayLoop env hostinfo out nb fullOut relays w) := by
  intro relays
  induction relays with
  | nil => intro w _; exact ⟨0, Nat.zero_le _, counterStep_refl cs w⟩
  | cons relayIP rest ih =>
    intro w hw
    have h1 : CounterStep cs 0 w
        (w.emit (Event.queryRelay (env.hostinfo hostinfo).vpnIp relayIP)) :=
      counterStep_neutral [Event.queryRelay (env.hostinfo hostinfo).vpnIp relayIP] rfl rfl rfl rfl
    unfold relayLoop
    simp only []
    split
    · obtain ⟨m, hm, hstep⟩ := ih
        ((w.emit (Event.queryRelay (env.hostinfo hostinfo).vpnIp relayIP)).deleteRelay
          hostinfo relayIP) hw
      refine ⟨m, hm, ?_⟩
      have h2 := counterStep_trans (counterStep_neutral (c := cs) (w := w)
        (v := (w.emit (Event.queryRelay (env.hostinfo hostinfo).vpnIp relayIP)).deleteRelay
          hostinfo relayIP)
        [Event.queryRelay (env.hostinfo hostinfo).vpnIp relayIP,
          Event.deleteRelay hostinfo relayIP] (by simp) rfl rfl rfl) hstep
      simpa using h2
    · split
      · exact ⟨0, Nat.zero_le _, counterStep_neutral (w := w)
          (v := World.panic (w.emit (Event.queryRelay (env.hostinfo hostinfo).vpnIp relayIP))
            slicePanic)
          [Event.queryRelay (env.hostinfo hostinfo).vpnIp relayIP] rfl rfl rfl rfl⟩
      · obtain ⟨m, hm, hstep⟩ := SendVia_counter env _ _ out.data nb _ true cs
          (w.emit (Event.queryRelay (env.hostinfo hostinfo).vpnIp relayIP)) hw
        refine ⟨m, hm, ?_⟩
        have h2 := counterStep_trans h1 hstep
        simpa using h2

theorem deliver_counter (env : Env) (hostinfo : Nat) (remote : AddrPort) (nb : Bytes)
    (fullOut : Slice) (q : Nat) (r : Except String Slice) (cs : Nat) (w : World)
    (hw : w.messageCounter cs + 1 < 2 ^ 64) :
    ∃ m, m ≤ 1 ∧ CounterStep cs m w (deliver env hostinfo remote nb fullOut q r w) := by
  cases r with
  | error e => exact ⟨0, Nat.zero_le _, counterStep_refl cs w⟩
  | ok out =>
    unfold deliver
    split_ifs
    · exact ⟨0, Nat.zero_le _, counterStep_neutral [Event.udpWrite q out.data remote]
        rfl rfl rfl rfl⟩
    · exact ⟨0, Nat.zero_le _, counterStep_neutral
        [Event.udpWrite q out.data (env.hostinfo hostinfo).remote] rfl rfl rfl rfl⟩
    · exact relayLoop_counter env hostinfo out nb fullOut cs _ w hw

theorem headerCounters_rebindEvents (env : Env) (t hostinfo : Nat) (w : World) (cs : Nat) :
    headerCounters cs (rebindEvents env t hostinfo w) = [] := by
  unfold rebindEvents
  split_ifs <;> simp [headerCounters, Event.headerCounter]

theorem cipherCounters_rebindEvents (env : Env) (t hostinfo : Nat) (w : World) (cs : Nat) :
    cipherCounters cs (rebindEvents env t hostinfo w) = [] := by
  unfold rebindEvents
  split_ifs <;> simp [cipherCounters, Event.cipherCounter]

/-- The world of `encodeAndEncrypt` right before the packet is delivered. -/
theorem encodeAndEncrypt_block (env : Env) (t st ci hostinfo : Nat) (p : Bytes) (cs : Nat)
    (w : World) (hw : w.messageCounter cs + 1 < 2 ^ 64) :
    ∃ m, m ≤ 1 ∧ CounterStep cs m w
      ((rebindQuery env t hostinfo
        (((w.counterAdd ci).2.emit
          (Event.headerEncode ci t st (env.hostinfo hostinfo).remoteIndexId (w.counterAdd ci).1)).emit
          (Event.connOut (env.hostinfo hostinfo).localIndexId))).emit
        (Event.encrypt ci p (w.counterAdd ci).1)) := by
  have ht : ((rebindQuery env t hostinfo
        (((w.counterAdd ci).2.emit
          (Event.headerEncode ci t st (env.hostinfo hostinfo).remoteIndexId (w.counterAdd ci).1)).emit
          (Event.connOut (env.hostinfo hostinfo).localIndexId))).emit
        (Event.encrypt ci p (w.counterAdd ci).1)).trace
      = w.trace ++
        ([Event.headerEncode ci t st (env.hostinfo hostinfo).remoteIndexId (w.counterAdd ci).1,
          Event.connOut (env.hostinfo hostinfo).localIndexId] ++
          rebindEvents env t hostinfo w ++ [Event.encrypt ci p (w.counterAdd ci).1]) := by
    rw [World.emit_trace, rebindQuery_trace, rebindEvents_counterAdd]
    simp
  by_cases hcs : ci = cs
  · subst hcs
    have hc : (w.messageCounter ci + 1) % 18446744073709551616 = w.messageCounter ci + 1 :=
      Nat.mod_eq_of_lt hw
    refine ⟨1, le_refl _, counterStep_bump _ ht (by simp [hc]) ?_ (Or.inl ?_)⟩
    · rw [headerCounters_append, headerCounters_append, headerCounters_rebindEvents]
      simp [headerCounters, Event.headerCounter, hc]
    · rw [cipherCounters_append, cipherCounters_append, cipherCounters_rebindEvents]
      simp [cipherCounters, Event.cipherCounter, hc]
  · refine ⟨0, Nat.zero_le _, counterStep_neutral _ ht
      (by simp [Function.update_noteq (Ne.symm hcs)]) ?_ ?_⟩
    · rw [headerCounters_append, headerCounters_append, headerCounters_rebindEvents]
      simp [headerCounters, Event.headerCounter, hcs]
    · rw [cipherCounters_append, cipherCounters_append, cipherCounters_rebindEvents]
      simp [cipherCounters, Event.cipherCounter, hcs]

theorem encodeAndEncrypt_counter (env : Env) (t st ci hostinfo : Nat) (remote : AddrPort)
    (p nb : Bytes) (out fullOut : Slice) (q : Nat) (cs : Nat) (w : World)
    (hw : w.messageCounter cs + 2 < 2 ^ 64) :
    ∃ m, m ≤ 2 ∧ CounterStep cs m w
      (encodeAndEncrypt env t st ci hostinfo remote p nb out fullOut q w) := by
  obtain ⟨m1, hm1, h1⟩ := encodeAndEncrypt_block env t st ci hostinfo p cs w (by omega)
  obtain ⟨_, _, hctr, _, _⟩ := id h1
  obtain ⟨m2, hm2, h2⟩ := deliver_counter env hostinfo remote nb fullOut q
    (env.EncryptDanger ci
      (env.Encode out env.Version t st (env.hostinfo hostinfo).remoteIndexId (w.counterAdd ci).1)
      (env.Encode out env.Version t st (env.hostinfo hostinfo).remoteIndexId
        (w.counterAdd ci).1).data p (w.counterAdd ci).1 nb) cs _ (by rw [hctr]; omega)
  exact ⟨m1 + m2, by omega, counterStep_trans h1 h2⟩

theorem sendNoMetrics_counter (env : Env) (t st ci hostinfo : Nat) (remote : AddrPort)
    (p nb : Bytes) (out : Slice) (q : Nat) (cs : Nat) (w : World)
    (hw : w.messageCounter cs + 2 < 2 ^ 64) :
    ∃ m, m ≤ 2 ∧ CounterStep cs m w
      (sendNoMetrics env t st ci hostinfo remote p nb out q w) := by
  unfold sendNoMetrics
  split_ifs
  · exact ⟨0, Nat.zero_le _, counterStep_refl cs w⟩
  · simp only []
    split
    · exact ⟨0, Nat.zero_le _, counterStep_neutral (w := w) (v := w.panic slicePanic) []
        (by simp) rfl rfl rfl⟩
    · exact encodeAndEncrypt_counter env t st ci hostinfo remote p nb _ _ q cs w hw

theorem runCalls_counter (env : Env) (cs : Nat) :
    ∀ (calls : List Call) (w : World), w.messageCounter cs + 2 * calls.length < 2 ^ 64 →
      ∃ m, m ≤ 2 * calls.length ∧ CounterStep cs m w (runCalls env calls w) := by
  intro calls
  induction calls with
  | nil => intro w _; exact ⟨0, Nat.zero_le _, counterStep_refl cs w⟩
  | cons c rest ih =>
    intro w hw
    simp only [List.length_cons] at hw ⊢
    unfold runCalls
    split_ifs
    · exact ⟨0, Nat.zero_le _, counterStep_refl cs w⟩
    · have hstep : ∃ m, m ≤ 2 ∧ CounterStep cs m w (c.run env w) := by
        cases c with
        | sendNoMetrics t st ci hostinfo remote p nb out q =>
          exact sendNoMetrics_counter env t st ci hostinfo remote p nb out q cs w (by omega)
        | SendVia via relay ad nb out nocopy =>
          obtain ⟨m, hm, h⟩ := SendVia_counter env via relay ad nb out nocopy cs w (by omega)
          exact ⟨m, by omega, h⟩
      obtain ⟨m1, hm1, h1⟩ := hstep
      obtain ⟨_, _, hctr, _, _⟩ := id h1
      obtain ⟨m2, hm2, h2⟩ := ih (c.run env w) (by rw [hctr]; omega)
      exact ⟨m1 + m2, by omega, counterStep_trans h1 h2⟩

end Nebula

namespace Nebula

/-! ## More on the direct path and on rejection -/

theorem encodeAndEncrypt_direct_fields (env : Env) (t st ci hostinfo : Nat) (remote : AddrPort)
    (p nb : Bytes) (out fullOut : Slice) (q : Nat) (w : World)
    (hdirect : remote.IsValid = true ∨ (env.hostinfo hostinfo).remote.IsValid = true) :
    (encodeAndEncrypt env t st ci hostinfo remote p nb out fullOut q w).relayIps = w.relayIps ∧
    (encodeAndEncrypt env t st ci hostinfo remote p nb out fullOut q w).panicked = w.panicked ∧
    ∀ cs, cs ≠ ci →
      (encodeAndEncrypt env t st ci hostinfo remote p nb out fullOut q w).messageCounter cs
        = w.messageCounter cs := by
  unfold encodeAndEncrypt
  simp only [deliver_direct _ _ _ _ _ _ _ _ hdirect]
  cases env.EncryptDanger ci
      (env.Encode out env.Version t st (env.hostinfo hostinfo).remoteIndexId (w.counterAdd ci).1)
      (env.Encode out env.Version t st (env.hostinfo hostinfo).remoteIndexId
        (w.counterAdd ci).1).data p (w.counterAdd ci).1 nb with
  | error e =>
    refine ⟨by simp, by simp, ?_⟩
    intro cs hcs
    simp [Function.update_noteq hcs]
  | ok enc =>
    refine ⟨by simp, by simp, ?_⟩
    intro cs hcs
    simp [Function.update_noteq hcs]

theorem directEvents_not_relay (env : Env) (t st ci hostinfo : Nat) (dst : AddrPort)
    (p nb : Bytes) (out : Slice) (q : Nat) (w : World) :
    ∀ e ∈ directEvents env t st ci hostinfo dst p nb out q w, e.isRelay = false := by
  intro e he
  unfold directEvents rebindEvents at he
  simp only [List.mem_append, List.mem_cons, List.mem_singleton, List.not_mem_nil, or_false] at he
  rcases he with ((h | h) | h) | h
  · rcases h with rfl | rfl <;> rfl
  · split_ifs at h
    · rw [List.mem_singleton.1 h]; rfl
    · simp at h
  · rw [h]; rfl
  · split at h
    · simp at h
    · rw [List.mem_singleton.1 h]; rfl

theorem Slice.data_length_le (s : Slice) : s.data.length ≤ s.len := by
  unfold Slice.data
  rw [List.length_take]
  exact Nat.min_le_left _ _

theorem rejectInside_trace (env : Env) (packet : Bytes) (out : Slice) (q : Nat) (w : World) :
    (rejectInside env packet out q w).trace = w.trace ++
      (if env.InSendReject = true ∧ (env.CreateRejectPacket packet out).len ≠ 0 then
        [Event.tunWrite q (env.CreateRejectPacket packet out).data] else []) := by
  unfold rejectInside
  by_cases h1 : env.InSendReject = true <;>
    by_cases h2 : (env.CreateRejectPacket packet out).len = 0 <;> simp [h1, h2]

theorem rejectInside_messageCounter (env : Env) (packet : Bytes) (out : Slice) (q : Nat)
    (w : World) : (rejectInside env packet out q w).messageCounter = w.messageCounter := by
  unfold rejectInside
  by_cases h1 : env.InSendReject = true <;>
    by_cases h2 : (env.CreateRejectPacket packet out).len = 0 <;> simp [h1, h2]

theorem isGate_not_udp (e : Event) (h : e.isGate = true) :
    e.isUdpWrite = false ∧ e.isTunWrite = false := by
  cases e <;> simp_all [Event.isGate, Event.isLookup, Event.isCachePacket, Event.isUdpWrite,
    Event.isTunWrite]

theorem isEmitter_not_cache (e : Event) (h : e.isEmitter = true) : e.isCachePacket = false := by
  cases e <;> simp_all [Event.isEmitter, Event.isLookup, Event.isCachePacket, Event.isTunWrite]

theorem isLookup_not_cache (e : Event) (h : e.isLookup = true) :
    e.isCachePacket = false ∧ e.isUdpWrite = false := by
  cases e <;> simp_all [Event.isLookup, Event.isCachePacket, Event.isUdpWrite]

theorem adds_events {P : Event → Prop} {w w' : World} {evs : List Event}
    (ht : w'.trace = w.trace ++ evs) (h : Adds P w w') : ∀ e ∈ evs, P e := by
  obtain ⟨evs', ht', hp⟩ := h
  have : evs = evs' := List.append_cancel_left (ht.symm.trans ht')
  rw [this]
  exact hp

theorem wasSent_eq_false (evs : List Event) (h : ∀ e ∈ evs, e.isUdpWrite = false) :
    wasSent evs = false := by
  unfold wasSent
  rw [List.any_eq_false]
  intro e he
  simp [h e he]

theorem wasQueued_eq_false (evs : List Event) (h : ∀ e ∈ evs, e.isCachePacket = false) :
    wasQueued evs = false := by
  unfold wasQueued
  rw [List.any_eq_false]
  intro e he
  simp [h e he]

/-! ## The outcome of `consumeInsidePacket` -/

theorem consumeInsidePacketExit_fst (env : Env) (packet nb : Bytes) (out : Slice) (q : Nat)
    (w : World) :
    (consumeInsidePacketExit env packet nb out q w).1 = consumeInsidePacket env packet nb out q w := by
  unfold consumeInsidePacketExit consumeInsidePacket
  cases env.newPacket packet false with
  | none => rfl
  | some fwPacket =>
    simp only []
    rcases getOrHandshakeConsiderRouting env fwPacket (some (cacheCallback env packet)) w
      with ⟨w1, hostinfo, ready⟩
    cases hostinfo with
    | none => simp only []; split_ifs <;> rfl
    | some h =>
      simp only []
      cases env.firewallDrop fwPacket false h <;> simp only [] <;> split_ifs <;> rfl

/-- A lookup for which the manager does not run the callback adds the lookup
only. -/
theorem GetOrHandshake_quiet_adds (env : Env) (ip : Addr) (packet : Option Bytes)
    (hcb : (env.handshakeManager ip).callback = false) {w0 w : World}
    (h : Adds (fun e => e.isLookup = true) w0 w) :
    Adds (fun e => e.isLookup = true) w0
      (GetOrHandshake env ip (packet.map (cacheCallback env)) w).1 := by
  unfold GetOrHandshake
  simp only [hcb]
  exact adds_emit_right h rfl

/-- A routing that answers no host added lookups only, no cache callback, when
the manager runs the callback only for lookups it answers with a host and the
fallback loop meets no ready gateway and ends on a gateway answered with a
host. -/
theorem routing_nohost_adds (env : Env) (fwPacket : Packet) (packet : Option Bytes) (w : World)
    (hcontract : ∀ ip, (env.handshakeManager ip).callback = true →
      (env.handshakeManager ip).hostinfo ≠ none)
    (hfb : ∀ gatewayIp, env.myVpnNetContains fwPacket.RemoteIP = false →
      2 ≤ (env.RoutesFor fwPacket.RemoteIP).length →
      balancePacket env.sum64 fwPacket (env.RoutesFor fwPacket.RemoteIP) = Except.ok gatewayIp →
      (env.handshakeManager gatewayIp).ready = false →
      (∀ g ∈ env.RoutesFor fwPacket.RemoteIP, g.Ip ≠ gatewayIp →
        (env.handshakeManager g.Ip).ready = false) ∧
      ∃ last, (fallbackIps gatewayIp (env.RoutesFor fwPacket.RemoteIP)).getLast? = some last ∧
        (env.handshakeManager last).hostinfo ≠ none)
    (hnone : (getOrHandshakeConsiderRouting env fwPacket
      (packet.map (cacheCallback env)) w).2.1 = none) :
    Adds (fun e => e.isLookup = true) w
      (getOrHandshakeConsiderRouting env fwPacket (packet.map (cacheCallback env)) w).1 := by
  have hquiet : ∀ ip, (env.handshakeManager ip).hostinfo = none →
      (env.handshakeManager ip).callback = false := by
    intro ip hn
    cases hc : (env.handshakeManager ip).callback
    · rfl
    · exact absurd hn (hcontract ip hc)
  cases hin : env.myVpnNetContains fwPacket.RemoteIP with
  | true =>
    rw [routing_inVpn _ _ _ _ hin] at hnone ⊢
    exact GetOrHandshake_quiet_adds env _ packet (hquiet _ hnone) (adds_refl _ w)
  | false =>
    rcases route_shape (env.RoutesFor fwPacket.RemoteIP) with hroutes | ⟨g, hroutes⟩ | hmulti
    · rw [routing_none _ _ _ _ hin hroutes]
      exact adds_refl _ w
    · rw [routing_single _ _ _ _ g hin hroutes] at hnone ⊢
      exact GetOrHandshake_quiet_adds env _ packet (hquiet _ hnone) (adds_refl _ w)
    · cases hbal : balancePacket env.sum64 fwPacket (env.RoutesFor fwPacket.RemoteIP) with
      | error msg =>
        rw [routing_multi_panic _ _ _ _ msg hin hmulti hbal]
        exact adds_of_trace_eq rfl
      | ok gatewayIp =>
        rw [routing_multi _ _ _ _ gatewayIp hin hmulti hbal] at hnone ⊢
        by_cases hok : (env.handshakeManager gatewayIp).ready = true
        · rw [if_pos hok] at hnone ⊢
          exact GetOrHandshake_quiet_adds env _ packet (hquiet _ hnone) (adds_refl _ w)
        · exfalso
          rw [if_neg hok, (fallbackLoop_spec env packet gatewayIp _ _ _ _).2] at hnone
          have hnot : (env.handshakeManager gatewayIp).ready = false := by
            simpa using hok
          obtain ⟨hothers, last, hlast, hhost⟩ := hfb gatewayIp hin hmulti hbal hnot
          have hfind : List.find? (fun ip => (env.handshakeManager ip).ready)
              (fallbackIps gatewayIp (env.RoutesFor fwPacket.RemoteIP)) = none := by
            rw [List.find?_eq_none]
            intro ip hip
            obtain ⟨g, hg, hne, rfl⟩ := mem_fallbackIps _ _ _ hip
            simp [hothers g hg hne]
          simp only [fallbackAnswer, hfind, hlast] at hnone
          exact hhost hnone

/-- The count of the outcomes after a return that discards the packet, when no
UDP write and no cache callback was added. -/
theorem outcome_discarded {w w' : World} (x : Exit)
    (hx : ∀ evs, wasDropped x evs = true) (hf : wasForwarded x = false)
    (h : Adds (fun e => e.isUdpWrite = false ∧ e.isCachePacket = false) w w') :
    ∃ evs, w'.trace = w.trace ++ evs ∧ (w'.panicked = none →
      List.count true [wasSent evs, wasQueued evs, wasDropped x evs, wasForwarded x] = 1) := by
  obtain ⟨evs, ht, hp⟩ := h
  refine ⟨evs, ht, fun _ => ?_⟩
  rw [wasSent_eq_false evs (fun e he => (hp e he).1),
    wasQueued_eq_false evs (fun e he => (hp e he).2), hx evs, hf]
  rfl

/-- The count of the outcomes after the write back to the device. -/
theorem outcome_forwarded {w w' : World}
    (h : Adds (fun e => e.isUdpWrite = false ∧ e.isCachePacket = false) w w') :
    ∃ evs, w'.trace = w.trace ++ evs ∧ (w'.panicked = none →
      List.count true [wasSent evs, wasQueued evs, wasDropped Exit.forwardedToSelf evs,
        wasForwarded Exit.forwardedToSelf] = 1) := by
  obtain ⟨evs, ht, hp⟩ := h
  refine ⟨evs, ht, fun _ => ?_⟩
  rw [wasSent_eq_false evs (fun e he => (hp e he).1),
    wasQueued_eq_false evs (fun e he => (hp e he).2)]
  rfl

/-- The count of the outcomes after the return at `!ready`, when no UDP write
was added. -/
theorem outcome_notReady {w w' : World} (h : Adds (fun e => e.isUdpWrite = false) w w') :
    ∃ evs, w'.trace = w.trace ++ evs ∧ (w'.panicked = none →
      List.count true [wasSent evs, wasQueued evs, wasDropped Exit.notReady evs,
        wasForwarded Exit.notReady] = 1) := by
  obtain ⟨evs, ht, hp⟩ := h
  refine ⟨evs, ht, fun _ => ?_⟩
  rw [wasSent_eq_false evs hp]
  cases hq : wasQueued evs <;> simp [wasDropped, wasForwarded, hq]

/-- The count of the outcomes after `sendNoMetrics`, when no cache callback was
added. -/
theorem outcome_sendCalled {w w' : World} (h : Adds (fun e => e.isCachePacket = false) w w') :
    ∃ evs, w'.trace = w.trace ++ evs ∧ (w'.panicked = none →
      List.count true [wasSent evs, wasQueued evs, wasDropped Exit.sendCalled evs,
        wasForwarded Exit.sendCalled] = 1) := by
  obtain ⟨evs, ht, hp⟩ := h
  refine ⟨evs, ht, fun _ => ?_⟩
  rw [wasQueued_eq_false evs hp]
  cases hs : wasSent evs <;> simp [wasDropped, wasForwarded, hs]

/-- After the panic there is no outcome to count. -/
theorem outcome_panicked {w w' : World} (x : Exit) (hp : w'.panicked.isSome = true)
    (h : Adds (fun e => e.isUdpWrite = false) w w') :
    ∃ evs, w'.trace = w.trace ++ evs ∧ (w'.panicked = none →
      List.count true [wasSent evs, wasQueued evs, wasDropped x evs, wasForwarded x] = 1) := by
  obtain ⟨evs, ht, _⟩ := h
  refine ⟨evs, ht, fun hn => ?_⟩
  rw [hn] at hp
  exact absurd hp (by decide)

end Nebula

namespace Nebula

/-! ## Claims on the outbound path -/

/-- C5, counterexample: a session whose 64-bit counter stands at `2 ^ 64 - 2`
and two calls of `sendNoMetrics` on it.  `Add(1)` wraps: the headers and the
cipher get `2 ^ 64 - 1` and then `0`, which is not an increase. -/
theorem messageCounter_wraps :
    headerCounters 4 (runCalls demoEnv
      [Call.sendNoMetrics 1 0 4 4 AddrPort.zero [7] [] demoOut 0,
        Call.sendNoMetrics 1 0 4 4 AddrPort.zero [7] [] demoOut 0]
      (freshWorld (2 ^ 64 - 2))).trace = [2 ^ 64 - 1, 0] ∧
    cipherCounters 4 (runCalls demoEnv
      [Call.sendNoMetrics 1 0 4 4 AddrPort.zero [7] [] demoOut 0,
        Call.sendNoMetrics 1 0 4 4 AddrPort.zero [7] [] demoOut 0]
      (freshWorld (2 ^ 64 - 2))).trace = [2 ^ 64 - 1, 0] := by
  refine ⟨by decide, by decide⟩

/-- C5, amended: over any sequence of `sendNoMetrics` and `SendVia` calls that
does not take the 64-bit counter of session `cs` past `2 ^ 64 - 1` (each call
increments it at most twice), the counters encoded in headers for `cs` are
exactly the consecutive values after the starting value, each once and in
order, up to the final value of the counter; the counters handed to the cipher
of `cs` are some of these in the same order; both sequences are strictly
increasing, so no value reaches the cipher twice. -/
theorem counters_strictly_increasing (env : Env) (cs : Nat) (calls : List Call) (w : World)
    (hw : w.messageCounter cs + 2 * calls.length < 2 ^ 64) :
    ∃ evs n, (runCalls env calls w).trace = w.trace ++ evs ∧
      (runCalls env calls w).messageCounter cs = w.messageCounter cs + n ∧
      headerCounters cs evs = List.range' (w.messageCounter cs + 1) n ∧
      (cipherCounters cs evs).Sublist (headerCounters cs evs) ∧
      (headerCounters cs evs).Pairwise (· < ·) ∧
      (cipherCounters cs evs).Pairwise (· < ·) ∧
      (cipherCounters cs evs).Nodup := by
  obtain ⟨n, _, evs, ht, hc, hh, hs⟩ := runCalls_counter env cs calls w hw
  have hp : (headerCounters cs evs).Pairwise (· < ·) := by
    rw [hh]
    exact List.pairwise_lt_range' _ _
  have hp2 : (cipherCounters cs evs).Pairwise (· < ·) := hp.sublist hs
  refine ⟨evs, n, ht, hc, hh, hs, hp, hp2, ?_⟩
  exact hp2.imp (fun h => Nat.ne_of_lt h)

/-- C5, witness: two sends on the fresh session 4 of the demo node. -/
theorem counters_strictly_increasing_witness :
    ∃ evs n, (runCalls demoEnv
        [Call.sendNoMetrics 1 0 4 4 AddrPort.zero [7] [] demoOut 0,
          Call.sendNoMetrics 1 0 4 4 AddrPort.zero [7] [] demoOut 0] (freshWorld 0)).trace
        = (freshWorld 0).trace ++ evs ∧
      (runCalls demoEnv
        [Call.sendNoMetrics 1 0 4 4 AddrPort.zero [7] [] demoOut 0,
          Call.sendNoMetrics 1 0 4 4 AddrPort.zero [7] [] demoOut 0] (freshWorld 0)).messageCounter 4
        = (freshWorld 0).messageCounter 4 + n ∧
      headerCounters 4 evs = List.range' ((freshWorld 0).messageCounter 4 + 1) n ∧
      (cipherCounters 4 evs).Sublist (headerCounters 4 evs) ∧
      (headerCounters 4 evs).Pairwise (· < ·) ∧
      (cipherCounters 4 evs).Pairwise (· < ·) ∧
      (cipherCounters 4 evs).Nodup :=
  counters_strictly_increasing demoEnv 4
    [Call.sendNoMetrics 1 0 4 4 AddrPort.zero [7] [] demoOut 0,
      Call.sendNoMetrics 1 0 4 4 AddrPort.zero [7] [] demoOut 0] (freshWorld 0) (by decide)

/-- C6, counterexample: on the demo node a packet for 192.168.0.1 is balanced to
10.0.0.2, which is pending: the manager queues it.  The fallback loop queues it
again on 10.0.0.3 and finds 10.0.0.4 ready, the firewall allows the packet and
`sendNoMetrics` writes it to UDP: the packet is both queued and sent, two of the
outcomes.  The manager runs the callback only for lookups it answers with a
host that is not ready, and nothing panics. -/
theorem packet_queued_and_sent :
    (∀ ip, (demoEnv.handshakeManager ip).callback = true →
      (demoEnv.handshakeManager ip).ready = false ∧
        (demoEnv.handshakeManager ip).hostinfo ≠ none) ∧
    (consumeInsidePacket demoEnv [192, 168, 0, 1, 7] [] demoOut 0 (freshWorld 0)).panicked
      = none ∧
    (consumeInsidePacketExit demoEnv [192, 168, 0, 1, 7] [] demoOut 0 (freshWorld 0)).2
      = Exit.sendCalled ∧
    lookups (consumeInsidePacket demoEnv [192, 168, 0, 1, 7] [] demoOut 0 (freshWorld 0)).trace
      = [Addr.ip4 0x0A000002, Addr.ip4 0x0A000003, Addr.ip4 0x0A000004] ∧
    wasQueued (consumeInsidePacket demoEnv [192, 168, 0, 1, 7] [] demoOut 0
      (freshWorld 0)).trace = true ∧
    wasSent (consumeInsidePacket demoEnv [192, 168, 0, 1, 7] [] demoOut 0
      (freshWorld 0)).trace = true ∧
    List.count true
      [wasSent (consumeInsidePacket demoEnv [192, 168, 0, 1, 7] [] demoOut 0 (freshWorld 0)).trace,
        wasQueued (consumeInsidePacket demoEnv [192, 168, 0, 1, 7] [] demoOut 0
          (freshWorld 0)).trace,
        wasDropped
          (consumeInsidePacketExit demoEnv [192, 168, 0, 1, 7] [] demoOut 0 (freshWorld 0)).2
          (consumeInsidePacket demoEnv [192, 168, 0, 1, 7] [] demoOut 0 (freshWorld 0)).trace,
        wasForwarded
          (consumeInsidePacketExit demoEnv [192, 168, 0, 1, 7] [] demoOut 0 (freshWorld 0)).2]
      = 2 := by
  refine ⟨?_, by decide, by decide, by decide, by decide, by decide, by decide⟩
  intro ip
  unfold demoEnv
  simp only []
  split_ifs <;> simp

/-- The packet is queued and then rejected: on the demo node with the route
10.0.0.2, 10.0.0.2 to 192.168.0.1 the packet is balanced to 10.0.0.2, which is
pending, and queued on it; the fallback loop skips both gateways and returns no
host, and `consumeInsidePacket` writes a reject packet to the device and leaves
by the return for an unroutable destination.  The packet is both queued and
dropped. -/
theorem packet_queued_and_rejected :
    (consumeInsidePacketExit
      { demoEnv with RoutesFor := fun _ =>
          [⟨Addr.ip4 0x0A000002, 1, 1073741823⟩, ⟨Addr.ip4 0x0A000002, 1, 2147483647⟩] }
      [192, 168, 0, 1, 7] [] demoOut 0 (freshWorld 0)).2 = Exit.noHost ∧
    (consumeInsidePacket
      { demoEnv with RoutesFor := fun _ =>
          [⟨Addr.ip4 0x0A000002, 1, 1073741823⟩, ⟨Addr.ip4 0x0A000002, 1, 2147483647⟩] }
      [192, 168, 0, 1, 7] [] demoOut 0 (freshWorld 0)).trace
      = [Event.getOrHandshake (Addr.ip4 0x0A000002),
          Event.cachePacket (Addr.ip4 0x0A000002) 1 0 [192, 168, 0, 1, 7],
          Event.tunWrite 0 [192, 168, 0, 1, 7]] ∧
    List.count true
      [wasSent [Event.getOrHandshake (Addr.ip4 0x0A000002),
          Event.cachePacket (Addr.ip4 0x0A000002) 1 0 [192, 168, 0, 1, 7],
          Event.tunWrite 0 [192, 168, 0, 1, 7]],
        wasQueued [Event.getOrHandshake (Addr.ip4 0x0A000002),
          Event.cachePacket (Addr.ip4 0x0A000002) 1 0 [192, 168, 0, 1, 7],
          Event.tunWrite 0 [192, 168, 0, 1, 7]],
        wasDropped Exit.noHost [Event.getOrHandshake (Addr.ip4 0x0A000002),
          Event.cachePacket (Addr.ip4 0x0A000002) 1 0 [192, 168, 0, 1, 7],
          Event.tunWrite 0 [192, 168, 0, 1, 7]],
        wasForwarded Exit.noHost] = 2 := by
  refine ⟨by decide, by decide, by decide⟩

/-- C6, amended: when the handshake manager runs the cache callback only for
lookups it answers with a host that is not ready, and, whenever the route has
two or more gateways and the balanced gateway is not ready, no other gateway of
the route is ready and the last gateway the fallback loop asks exists and is
answered with a host, then in every run of `consumeInsidePacket` that does not
panic exactly one of four outcomes occurs for the events it adds: sent (a UDP
write), queued (a cache callback), dropped (the function left by a discarding
return, or at `!ready` without having queued the packet, or `sendNoMetrics`
wrote nothing), or written back to the device by the self test.  The way the
function ended is that of `consumeInsidePacketExit`, which runs as
`consumeInsidePacket` does. -/
theorem consumeInsidePacket_one_outcome (env : Env) (packet nb : Bytes) (out : Slice) (q : Nat)
    (w : World)
    (hcontract : ∀ ip, (env.handshakeManager ip).callback = true →
      (env.handshakeManager ip).ready = false ∧ (env.handshakeManager ip).hostinfo ≠ none)
    (hfb : ∀ fwPacket gatewayIp, env.newPacket packet false = some fwPacket →
      env.myVpnNetContains fwPacket.RemoteIP = false →
      2 ≤ (env.RoutesFor fwPacket.RemoteIP).length →
      balancePacket env.sum64 fwPacket (env.RoutesFor fwPacket.RemoteIP) = Except.ok gatewayIp →
      (env.handshakeManager gatewayIp).ready = false →
      (∀ g ∈ env.RoutesFor fwPacket.RemoteIP, g.Ip ≠ gatewayIp →
        (env.handshakeManager g.Ip).ready = false) ∧
      ∃ last, (fallbackIps gatewayIp (env.RoutesFor fwPacket.RemoteIP)).getLast? = some last ∧
        (env.handshakeManager last).hostinfo ≠ none) :
    (consumeInsidePacketExit env packet nb out q w).1 = consumeInsidePacket env packet nb out q w ∧
    ∃ evs, (consumeInsidePacket env packet nb out q w).trace = w.trace ++ evs ∧
      ((consumeInsidePacket env packet nb out q w).panicked = none →
        List.count true [wasSent evs, wasQueued evs,
          wasDropped (consumeInsidePacketExit env packet nb out q w).2 evs,
          wasForwarded (consumeInsidePacketExit env packet nb out q w).2] = 1) := by
  refine ⟨consumeInsidePacketExit_fst env packet nb out q w, ?_⟩
  rw [← consumeInsidePacketExit_fst env packet nb out q w]
  have hquiet : Adds (fun e => e.isUdpWrite = false ∧ e.isCachePacket = false) w w :=
    adds_refl _ w
  have hreject : ∀ w1, Adds (fun e => e.isLookup = true) w w1 →
      Adds (fun e => e.isUdpWrite = false ∧ e.isCachePacket = false) w
        (rejectInside env packet out q w1) := by
    intro w1 h1
    refine adds_trans (adds_mono h1 (fun e he => ⟨(isLookup_not_cache e he).2,
      (isLookup_not_cache e he).1⟩)) ⟨_, rejectInside_trace env packet out q w1, ?_⟩
    intro e he
    split_ifs at he
    · rw [List.mem_singleton.1 he]; exact ⟨rfl, rfl⟩
    · simp at he
  cases hparse : env.newPacket packet false with
  | none =>
    simp only [consumeInsidePacketExit, hparse]
    exact outcome_discarded Exit.parseError (fun _ => rfl) rfl hquiet
  | some fwPacket =>
    have hgate : Adds (fun e => e.isUdpWrite = false) w
        (getOrHandshakeConsiderRouting env fwPacket (some (cacheCallback env packet)) w).1 := by
      rcases routing_cases env fwPacket (some packet) w with ⟨msg, hm⟩ | ⟨ips, hg⟩
      · simp only [Option.map_some'] at hm
        rw [hm]
        exact adds_of_trace_eq rfl
      · exact adds_mono (gateStep_adds hg) (fun e he => (isGate_not_udp e he).1)
    have hready := routing_ready_adds env fwPacket (some packet) w
      (fun ip hc => (hcontract ip hc).1)
      (fun gatewayIp hin hmulti hbal hnot => (hfb fwPacket gatewayIp hparse hin hmulti hbal hnot).1)
    have hnohost := routing_nohost_adds env fwPacket (some packet) w
      (fun ip hc => (hcontract ip hc).2)
      (fun gatewayIp => hfb fwPacket gatewayIp hparse)
    simp only [Option.map_some'] at hready hnohost
    rcases hres : getOrHandshakeConsiderRouting env fwPacket
        (some (cacheCallback env packet)) w with ⟨w1, hostinfo, ready⟩
    rw [hres] at hgate hready hnohost
    simp only [] at hgate hready hnohost
    have hsend : ∀ h, Adds (fun e => e.isCachePacket = false) w w1 →
        Adds (fun e => e.isCachePacket = false) w
          (sendNoMetrics env env.Message 0 (env.hostinfo h).ConnectionState h AddrPort.zero
            packet nb out q w1) := by
      intro h h1
      apply sendNoMetrics_adds
      · intro e he _
        exact isEmitter_not_cache e he
      · exact h1
    cases hostinfo with
    | none =>
      simp only [consumeInsidePacketExit, hparse, hres]
      split_ifs with h1 h2 h3 h4 h5
      · exact outcome_discarded Exit.localBroadcast (fun _ => rfl) rfl hquiet
      · exact outcome_forwarded (adds_emit _ _ ⟨rfl, rfl⟩)
      · exact outcome_discarded Exit.selfDropped (fun _ => rfl) rfl hquiet
      · exact outcome_discarded Exit.multicast (fun _ => rfl) rfl hquiet
      · exact outcome_panicked Exit.panicked h5 hgate
      · exact outcome_discarded Exit.noHost (fun _ => rfl) rfl (hreject w1 (hnohost rfl))
    | some h =>
      cases ready with
      | false =>
        simp only [consumeInsidePacketExit, hparse, hres]
        split_ifs with h1 h2 h3 h4 h5
        · exact outcome_discarded Exit.localBroadcast (fun _ => rfl) rfl hquiet
        · exact outcome_forwarded (adds_emit _ _ ⟨rfl, rfl⟩)
        · exact outcome_discarded Exit.selfDropped (fun _ => rfl) rfl hquiet
        · exact outcome_discarded Exit.multicast (fun _ => rfl) rfl hquiet
        · exact outcome_panicked Exit.panicked h5 hgate
        · exact outcome_notReady hgate
        · simp_all
      | true =>
        have hq : Adds (fun e => e.isCachePacket = false) w w1 :=
          adds_mono (hready rfl) (fun e he => (isLookup_not_cache e he).1)
        cases hfw : env.firewallDrop fwPacket false h with
        | some reason =>
          simp only [consumeInsidePacketExit, hparse, hres, hfw]
          split_ifs with h1 h2 h3 h4 h5
          · exact outcome_discarded Exit.localBroadcast (fun _ => rfl) rfl hquiet
          · exact outcome_forwarded (adds_emit _ _ ⟨rfl, rfl⟩)
          · exact outcome_discarded Exit.selfDropped (fun _ => rfl) rfl hquiet
          · exact outcome_discarded Exit.multicast (fun _ => rfl) rfl hquiet
          · exact outcome_panicked Exit.panicked h5 hgate
          · simp_all
          · exact outcome_discarded Exit.denied (fun _ => rfl) rfl (hreject w1 (hready rfl))
        | none =>
          simp only [consumeInsidePacketExit, hparse, hres, hfw]
          split_ifs with h1 h2 h3 h4 h5
          · exact outcome_discarded Exit.localBroadcast (fun _ => rfl) rfl hquiet
          · exact outcome_forwarded (adds_emit _ _ ⟨rfl, rfl⟩)
          · exact outcome_discarded Exit.selfDropped (fun _ => rfl) rfl hquiet
          · exact outcome_discarded Exit.multicast (fun _ => rfl) rfl hquiet
          · exact outcome_panicked Exit.panicked h5 hgate
          · simp_all
          · exact outcome_sendCalled (hsend h hq)

/-- C6, witness: on the demo node with every host pending, the packet for
192.168.0.1 is balanced to 10.0.0.2 of the route 10.0.0.2, 10.0.0.3, 10.0.0.4;
the fallback loop finds no ready gateway and ends on 10.0.0.4, answered with a
host: the packet is queued and nothing else. -/
theorem consumeInsidePacket_one_outcome_witness :
    (consumeInsidePacketExit { demoEnv with handshakeManager := fun _ => ⟨some 9, false, true⟩ }
      [192, 168, 0, 1, 7] [] demoOut 0 (freshWorld 0)).2 = Exit.notReady ∧
    wasQueued (consumeInsidePacket
      { demoEnv with handshakeManager := fun _ => ⟨some 9, false, true⟩ }
      [192, 168, 0, 1, 7] [] demoOut 0 (freshWorld 0)).trace = true ∧
    ((consumeInsidePacketExit { demoEnv with handshakeManager := fun _ => ⟨some 9, false, true⟩ }
        [192, 168, 0, 1, 7] [] demoOut 0 (freshWorld 0)).1
      = consumeInsidePacket { demoEnv with handshakeManager := fun _ => ⟨some 9, false, true⟩ }
        [192, 168, 0, 1, 7] [] demoOut 0 (freshWorld 0) ∧
    ∃ evs, (consumeInsidePacket
        { demoEnv with handshakeManager := fun _ => ⟨some 9, false, true⟩ }
        [192, 168, 0, 1, 7] [] demoOut 0 (freshWorld 0)).trace = (freshWorld 0).trace ++ evs ∧
      ((consumeInsidePacket { demoEnv with handshakeManager := fun _ => ⟨some 9, false, true⟩ }
          [192, 168, 0, 1, 7] [] demoOut 0 (freshWorld 0)).panicked = none →
        List.count true [wasSent evs, wasQueued evs,
          wasDropped (consumeInsidePacketExit
            { demoEnv with handshakeManager := fun _ => ⟨some 9, false, true⟩ }
            [192, 168, 0, 1, 7] [] demoOut 0 (freshWorld 0)).2 evs,
          wasForwarded (consumeInsidePacketExit
            { demoEnv with handshakeManager := fun _ => ⟨some 9, false, true⟩ }
            [192, 168, 0, 1, 7] [] demoOut 0 (freshWorld 0)).2] = 1)) :=
  ⟨by decide, by decide,
    consumeInsidePacket_one_outcome
      { demoEnv with handshakeManager := fun _ => ⟨some 9, false, true⟩ }
      [192, 168, 0, 1, 7] [] demoOut 0 (freshWorld 0)
      (fun _ _ => ⟨rfl, by simp⟩)
      (by
        intro fwPacket gatewayIp hparse _ _ hbal _
        have hp : fwPacket = ⟨Addr.ip4 0x0A000001, Addr.ip4 0xC0A80001, 1000, 80, 6, false⟩ :=
          (Option.some.inj hparse).symm
        subst hp
        have hg : gatewayIp = Addr.ip4 0x0A000002 := (Except.ok.inj hbal).symm
        subst hg
        exact ⟨fun _ _ _ => rfl, Addr.ip4 0x0A000004, by decide, by decide⟩)⟩

end Nebula

namespace Nebula

/-- C7, counterexample: on the demo node the route to 192.168.0.1 has the
gateways 10.0.0.2, 10.0.0.3, 10.0.0.4 and the packet is balanced to 10.0.0.2,
which is not ready.  The lookup of 10.0.0.3 is queued (a session, not ready);
the loop does not stop there: it goes on to 10.0.0.4 and returns its ready
session, not the queued one of 10.0.0.3. -/
theorem fallback_passes_queued_gateway :
    demoEnv.myVpnNetContains (Addr.ip4 0xC0A80001) = false ∧
    demoEnv.RoutesFor (Addr.ip4 0xC0A80001) = demoGateways ∧
    balancePacket demoEnv.sum64 ⟨Addr.ip4 0x0A000001, Addr.ip4 0xC0A80001, 1000, 80, 6, false⟩
      demoGateways = Except.ok (Addr.ip4 0x0A000002) ∧
    demoEnv.handshakeManager (Addr.ip4 0x0A000002) = ⟨some 2, false, true⟩ ∧
    demoEnv.handshakeManager (Addr.ip4 0x0A000003) = ⟨some 3, false, true⟩ ∧
    (getOrHandshakeConsiderRouting demoEnv
      ⟨Addr.ip4 0x0A000001, Addr.ip4 0xC0A80001, 1000, 80, 6, false⟩
      (some (cacheCallback demoEnv [192, 168, 0, 1, 7])) (freshWorld 0)).2 = (some 4, true) ∧
    lookups (getOrHandshakeConsiderRouting demoEnv
      ⟨Addr.ip4 0x0A000001, Addr.ip4 0xC0A80001, 1000, 80, 6, false⟩
      (some (cacheCallback demoEnv [192, 168, 0, 1, 7])) (freshWorld 0)).1.trace
      = [Addr.ip4 0x0A000002, Addr.ip4 0x0A000003, Addr.ip4 0x0A000004] := by
  refine ⟨by decide, by decide, by rfl, by decide, by decide, by decide, by decide⟩

/-- C7, amended: for a destination outside the VPN prefix whose route has two or
more gateways and whose balanced gateway `gatewayIp` is not ready, the handshake
manager is asked for `gatewayIp` and then for the other gateways in declared
order (every gateway with the ip `gatewayIp` skipped) up to and including the
first one that is ready, and for none after it.  The function returns the
session of that first ready gateway with `true`; when none is ready, every other
gateway was asked and it returns the answer of the last one with `false`, or
`(nil, false)` when there is no other gateway.  A queued answer does not stop
the loop. -/
theorem fallback_returns_first_ready (env : Env) (fwPacket : Packet) (packet : Option Bytes)
    (w : World) (gatewayIp : Addr)
    (hout : env.myVpnNetContains fwPacket.RemoteIP = false)
    (hmulti : 2 ≤ (env.RoutesFor fwPacket.RemoteIP).length)
    (hbal : balancePacket env.sum64 fwPacket (env.RoutesFor fwPacket.RemoteIP)
      = Except.ok gatewayIp)
    (hnot : (env.handshakeManager gatewayIp).ready = false) :
    GateStep
      (gatewayIp :: triedIps env (fallbackIps gatewayIp (env.RoutesFor fwPacket.RemoteIP))) w
      (getOrHandshakeConsiderRouting env fwPacket (packet.map (cacheCallback env)) w).1 ∧
    (getOrHandshakeConsiderRouting env fwPacket (packet.map (cacheCallback env)) w).2
      = fallbackAnswer env (fallbackIps gatewayIp (env.RoutesFor fwPacket.RemoteIP))
          (none, false) := by
  rw [routing_multi env fwPacket _ w gatewayIp hout hmulti hbal, if_neg (by simp [hnot])]
  obtain ⟨h1, h2⟩ := fallbackLoop_spec env packet gatewayIp (env.RoutesFor fwPacket.RemoteIP)
    (GetOrHandshake env gatewayIp (packet.map (cacheCallback env)) w).1 none false
  exact ⟨gateStep_trans (GetOrHandshake_gate env gatewayIp packet w) h1, h2⟩

/-- C7, witness: the packet for 192.168.0.1 on the demo node; the balanced
gateway 10.0.0.2 is not ready and the answer is the one of 10.0.0.4, the first
ready gateway. -/
theorem fallback_returns_first_ready_witness :
    (getOrHandshakeConsiderRouting demoEnv
        ⟨Addr.ip4 0x0A000001, Addr.ip4 0xC0A80001, 1000, 80, 6, false⟩
        ((some [192, 168, 0, 1, 7]).map (cacheCallback demoEnv)) (freshWorld 0)).2
      = (some 4, true) :=
  (fallback_returns_first_ready demoEnv
    ⟨Addr.ip4 0x0A000001, Addr.ip4 0xC0A80001, 1000, 80, 6, false⟩ (some [192, 168, 0, 1, 7])
    (freshWorld 0) (Addr.ip4 0x0A000002) (by decide) (by decide) (by rfl) (by decide)).2.trans
    (by decide)

/-- C8, counterexample: the demo node with a session that has no key yet.  The
explicit remote 203.0.113.9:4242 is valid, yet `sendNoMetrics` returns at its
first test and writes nothing. -/
theorem sendNoMetrics_without_key_writes_nothing :
    (AddrPort.mk (Addr.ip4 0xCB007109) 4242).IsValid = true ∧
    (sendNoMetrics { demoEnv with eKeyIsNil := fun _ => true } 1 0 4 4
      ⟨Addr.ip4 0xCB007109, 4242⟩ [7] [] demoOut 0 (freshWorld 0)).trace = [] := by
  refine ⟨by decide, by decide⟩

/-- C8, amended: when the explicit remote or the remote of the host is valid,
`sendNoMetrics` adds no event if the session has no key, and otherwise exactly
the events `directEvents`: one header, the tick of the connection manager, the
lighthouse query after a rebind, one encryption, and, when the encryption
succeeds, one UDP write of its result with writer `q` to the explicit remote if
that is valid and else to the remote of the host.  No relay is looked up,
evicted or used (so `SendVia` is not reached), the relay list is unchanged and
the counter of no other session moves. -/
theorem sendNoMetrics_direct_path (env : Env) (t st ci hostinfo : Nat) (remote : AddrPort)
    (p nb : Bytes) (out : Slice) (q : Nat) (w : World)
    (hdirect : remote.IsValid = true ∨ (env.hostinfo hostinfo).remote.IsValid = true) :
    (sendNoMetrics env t st ci hostinfo remote p nb out q w).trace
      = w.trace ++
        (if env.eKeyIsNil ci = true then []
          else directEvents env t st ci hostinfo
            (if remote.IsValid then remote else (env.hostinfo hostinfo).remote) p nb out q w) ∧
    (∀ e ∈ directEvents env t st ci hostinfo
        (if remote.IsValid then remote else (env.hostinfo hostinfo).remote) p nb out q w,
      e.isRelay = false) ∧
    (sendNoMetrics env t st ci hostinfo remote p nb out q w).relayIps = w.relayIps ∧
    (sendNoMetrics env t st ci hostinfo remote p nb out q w).panicked = w.panicked ∧
    ∀ cs, cs ≠ ci →
      (sendNoMetrics env t st ci hostinfo remote p nb out q w).messageCounter cs
        = w.messageCounter cs := by
  refine ⟨?_, directEvents_not_relay _ _ _ _ _ _ _ _ _ _ _, ?_⟩
  · cases hkey : env.eKeyIsNil ci with
    | true => simp [sendNoMetrics, hkey]
    | false =>
      rw [sendNoMetrics_direct _ _ _ _ _ _ _ _ _ _ _ hdirect hkey,
        encodeAndEncrypt_direct_trace _ _ _ _ _ _ _ _ _ _ _ _ hdirect]
      simp
  · cases hkey : env.eKeyIsNil ci with
    | true => simp [sendNoMetrics, hkey]
    | false =>
      rw [sendNoMetrics_direct _ _ _ _ _ _ _ _ _ _ _ hdirect hkey]
      exact encodeAndEncrypt_direct_fields _ _ _ _ _ _ _ _ _ _ _ _ hdirect

/-- C8, witness: the demo node sends to the valid remote of host 4; the trace is
the header, the tick, the encryption and the UDP write to that remote. -/
theorem sendNoMetrics_direct_path_witness :
    (sendNoMetrics demoEnv 1 0 4 4 AddrPort.zero [7] [] demoOut 0 (freshWorld 0)).trace
      = [Event.headerEncode 4 1 0 104 1, Event.connOut 204, Event.encrypt 4 [7] 1,
          Event.udpWrite 0 ([1, 1, 0, 104, 1] ++ List.replicate 11 0 ++ [7] ++ List.replicate 16 0)
            ⟨Addr.ip4 0xCB007104, 4242⟩] :=
  (sendNoMetrics_direct_path demoEnv 1 0 4 4 AddrPort.zero [7] [] demoOut 0 (freshWorld 0)
    (Or.inr (by decide))).1.trans (by decide)

/-- C9, counterexample: the demo node with a firewall that denies and a reject
synthesiser that returns an empty packet.  The packet for the ready host
10.0.0.4 parses, passes the filters and is denied; `InSendReject` is true, yet
nothing is written to the device: the only event is the lookup. -/
theorem denied_packet_without_reject :
    ({ demoEnv with firewallDrop := fun _ _ _ => some "denied",
                    CreateRejectPacket := fun _ _ => ⟨[], 0⟩ } : Env).InSendReject = true ∧
    (consumeInsidePacket
      { demoEnv with firewallDrop := fun _ _ _ => some "denied",
                     CreateRejectPacket := fun _ _ => ⟨[], 0⟩ }
      [10, 0, 0, 4, 7] [] demoOut 0 (freshWorld 0)).trace
      = [Event.getOrHandshake (Addr.ip4 0x0A000004)] := by
  refine ⟨by decide, by decide⟩

/-- C9, amended: for a packet that parses, passes the broadcast, self and
multicast filters, resolves to a ready session `h` and is denied by the
firewall, `consumeInsidePacket` leaves every message counter unchanged and adds
no UDP write; the tun writes it adds are exactly one write of the reject packet
to queue `q` when `InSendReject` is true and the reject packet is not empty, and
none otherwise. -/
theorem denied_packet_rejected (env : Env) (packet nb : Bytes) (out : Slice) (q : Nat)
    (w : World) (fwPacket : Packet) (h : Nat) (reason : String)
    (hparse : env.newPacket packet false = some fwPacket)
    (hbroadcast : ¬(env.dropLocalBroadcast = true ∧ fwPacket.RemoteIP = env.myBroadcastAddr))
    (hself : fwPacket.RemoteIP ≠ env.myVpnNetAddr)
    (hmulticast : ¬(env.dropMulticast = true ∧ env.IsMulticast fwPacket.RemoteIP = true))
    (hpanic : w.panicked = none)
    (hroute : (getOrHandshakeConsiderRouting env fwPacket (some (cacheCallback env packet)) w).2
      = (some h, true))
    (hdeny : env.firewallDrop fwPacket false h = some reason) :
    (consumeInsidePacket env packet nb out q w).messageCounter = w.messageCounter ∧
    ∃ evs, (consumeInsidePacket env packet nb out q w).trace = w.trace ++ evs ∧
      (∀ e ∈ evs, e.isUdpWrite = false) ∧
      evs.filter Event.isTunWrite =
        (if env.InSendReject = true ∧ (env.CreateRejectPacket packet out).len ≠ 0 then
          [Event.tunWrite q (env.CreateRejectPacket packet out).data] else []) := by
  rcases hres : getOrHandshakeConsiderRouting env fwPacket
      (some (cacheCallback env packet)) w with ⟨w1, hostinfo, ready⟩
  rw [hres] at hroute
  simp only [Prod.mk.injEq] at hroute
  obtain ⟨rfl, rfl⟩ := hroute
  have hstep : ∃ ips, GateStep ips w w1 := by
    rcases routing_cases env fwPacket (some packet) w with ⟨msg, hm⟩ | ⟨ips, hg⟩
    · simp only [Option.map_some'] at hm
      rw [hm] at hres
      simp at hres
    · simp only [Option.map_some'] at hg
      rw [hres] at hg
      exact ⟨ips, hg⟩
  obtain ⟨ips, ⟨gevs, hgt, _, hgate⟩, hctr, _, hp⟩ := hstep
  have hp1 : w1.panicked.isSome = false := by rw [hp, hpanic]; rfl
  have heq : consumeInsidePacket env packet nb out q w = rejectInside env packet out q w1 := by
    simp only [consumeInsidePacket, hparse, hres, hdeny, hp1]
    simp [hbroadcast, hself, hmulticast]
  rw [heq]
  refine ⟨by rw [rejectInside_messageCounter, hctr], ?_⟩
  refine ⟨gevs ++ (if env.InSendReject = true ∧ (env.CreateRejectPacket packet out).len ≠ 0 then
      [Event.tunWrite q (env.CreateRejectPacket packet out).data] else []), ?_, ?_, ?_⟩
  · rw [rejectInside_trace, hgt, List.append_assoc]
  · intro e he
    rcases List.mem_append.1 he with h1 | h1
    · exact (isGate_not_udp e (hgate e h1)).1
    · split_ifs at h1
      · rw [List.mem_singleton.1 h1]; rfl
      · simp at h1
  · have hnone : gevs.filter Event.isTunWrite = [] := by
      rw [List.filter_eq_nil_iff]
      intro e he
      simp [(isGate_not_udp e (hgate e he)).2]
    rw [List.filter_append, hnone, List.nil_append]
    split_ifs
    · rfl
    · rfl

/-- C9, witness: the demo node with a firewall that denies; the packet for the
ready host 10.0.0.4 is rejected to queue 0. -/
theorem denied_packet_rejected_witness :
    (consumeInsidePacket { demoEnv with firewallDrop := fun _ _ _ => some "denied" }
      [10, 0, 0, 4, 7] [] demoOut 0 (freshWorld 0)).messageCounter = (freshWorld 0).messageCounter ∧
    ∃ evs, (consumeInsidePacket { demoEnv with firewallDrop := fun _ _ _ => some "denied" }
        [10, 0, 0, 4, 7] [] demoOut 0 (freshWorld 0)).trace = (freshWorld 0).trace ++ evs ∧
      (∀ e ∈ evs, e.isUdpWrite = false) ∧
      evs.filter Event.isTunWrite = [Event.tunWrite 0 [10, 0, 0, 4, 7]] :=
  denied_packet_rejected { demoEnv with firewallDrop := fun _ _ _ => some "denied" }
    [10, 0, 0, 4, 7] [] demoOut 0 (freshWorld 0)
    ⟨Addr.ip4 0x0A000001, Addr.ip4 0x0A000004, 1000, 80, 6, false⟩ 4 "denied"
    (by rfl) (by decide) (by decide) (by decide) (by rfl) (by decide) (by rfl)

/-- C10, counterexample: on the demo node, whose `MaxRejectPacketSize` is 96,
the reject packet built for a packet of 97 bytes has 97 bytes, and
`rejectInside` writes all of them to the device. -/
theorem rejectInside_writes_oversize :
    demoEnv.MaxRejectPacketSize = 96 ∧
    (rejectInside demoEnv (List.replicate 97 0) demoOut 0 (freshWorld 0)).trace
      = [Event.tunWrite 0 (List.replicate 97 0)] ∧
    (List.replicate 97 0).length = 97 := by
  refine ⟨by decide, by decide, by decide⟩

/-- C10, amended: `rejectOutside` hands a reject packet to `sendNoMetrics` only
when its length is between 1 and `MaxRejectPacketSize`: it adds events only in
that case, and every plaintext it hands to a cipher has at most
`MaxRejectPacketSize` bytes.  `rejectInside` has no such test: when
`InSendReject` is true it writes the result of `CreateRejectPacket` to queue `q`
whenever that is not empty, whatever its length. -/
theorem reject_packet_sizes (env : Env) (packet : Slice) (ci hostinfo : Nat) (nb : Bytes)
    (out : Slice) (q : Nat) (w : World) :
    (∃ evs, (rejectOutside env packet ci hostinfo nb out q w).trace = w.trace ++ evs ∧
      (evs ≠ [] → env.OutSendReject = true ∧
        0 < (env.CreateRejectPacket packet.data out).len ∧
        (env.CreateRejectPacket packet.data out).len ≤ env.MaxRejectPacketSize) ∧
      ∀ e ∈ evs, ∀ pl, e.plaintext = some pl → pl.length ≤ env.MaxRejectPacketSize) ∧
    (rejectInside env packet.data out q w).trace = w.trace ++
      (if env.InSendReject = true ∧ (env.CreateRejectPacket packet.data out).len ≠ 0 then
        [Event.tunWrite q (env.CreateRejectPacket packet.data out).data] else []) := by
  refine ⟨?_, rejectInside_trace env packet.data out q w⟩
  unfold rejectOutside
  by_cases h1 : env.OutSendReject = true
  · by_cases h2 : (env.CreateRejectPacket packet.data out).len = 0
    · exact ⟨[], by simp [h1, h2], by simp, by simp⟩
    · by_cases h3 : (env.CreateRejectPacket packet.data out).len > env.MaxRejectPacketSize
      · exact ⟨[], by simp [h1, h2, h3], by simp, by simp⟩
      · simp only [h1, h2, h3, Bool.not_true, Bool.false_eq_true, if_false]
        obtain ⟨evs, ht, hp⟩ := sendNoMetrics_adds env env.Message 0 ci hostinfo AddrPort.zero
          (env.CreateRejectPacket packet.data out).data nb packet q
          (fun e => ∀ pl, e.plaintext = some pl → pl.length ≤ env.MaxRejectPacketSize)
          (by
            intro e _ hpl pl hpl2
            rw [hpl2] at hpl
            rcases hpl with hpl | hpl | hpl
            · simp at hpl
            · rw [Option.some.inj hpl]; simp
            · rw [Option.some.inj hpl]
              have hl := Slice.data_length_le (env.CreateRejectPacket packet.data out)
              omega)
          (adds_refl _ w)
        exact ⟨evs, ht, fun _ => ⟨trivial, by omega, by omega⟩, hp⟩
  · exact ⟨[], by simp [h1], by simp, by simp⟩

end Nebula

namespace Nebula

/-! ## More on the rebalancer -/

theorem sumWeights_congr (a b : List Gateway) (h : a.map Gateway.weight = b.map Gateway.weight) :
    ∀ tw : Int, sumWeights tw a = sumWeights tw b := by
  induction a generalizing b with
  | nil =>
    intro tw
    cases b with
    | nil => rfl
    | cons y ys => simp at h
  | cons x xs ih =>
    intro tw
    cases b with
    | nil => simp at h
    | cons y ys =>
      simp only [List.map_cons, List.cons.injEq] at h
      simp only [sumWeights, h.1]
      exact ih ys h.2 _

theorem rebalanceLoop_weights (tw : Int) (gws : List Gateway) :
    ∀ (lw : Int) (out : List Gateway), rebalanceLoop tw lw gws = some out →
      out.map Gateway.weight = gws.map Gateway.weight ∧ out.map Gateway.ip = gws.map Gateway.ip := by
  induction gws with
  | nil =>
    intro lw out h
    simp only [rebalanceLoop, Option.some.injEq] at h
    subst h
    exact ⟨rfl, rfl⟩
  | cons g rest ih =>
    intro lw out h
    simp only [rebalanceLoop] at h
    split at h
    · simp at h
    · split at h
      · simp at h
      · rename_i r _ rest' hrest
        simp only [Option.some.injEq] at h
        subst h
        obtain ⟨h1, h2⟩ := ih _ _ hrest
        simp [Gateway.SetUpperBound, h1, h2]

theorem rebalanceLoop_again (tw : Int) (gws : List Gateway) :
    ∀ (lw : Int) (out : List Gateway), rebalanceLoop tw lw gws = some out →
      rebalanceLoop tw lw out = some out := by
  induction gws with
  | nil =>
    intro lw out h
    simp only [rebalanceLoop, Option.some.injEq] at h
    subst h
    rfl
  | cons g rest ih =>
    intro lw out h
    simp only [rebalanceLoop] at h
    split at h
    · simp at h
    · split at h
      · simp at h
      · rename_i _ r hr _ rest' hrest
        simp only [Option.some.injEq] at h
        subst h
        have hw : (g.SetUpperBound (wrapInt (ofUint64 r - 1))).weight = g.weight := rfl
        simp only [rebalanceLoop, hw, hr, ih _ _ hrest]
        rfl

theorem RebalanceGateways_again (gws out : List Gateway) (h : RebalanceGateways gws = some out) :
    RebalanceGateways out = some out := by
  unfold RebalanceGateways at h ⊢
  have hw := (rebalanceLoop_weights _ gws 0 out h).1
  rw [sumWeights_congr out gws hw 0]
  exact rebalanceLoop_again _ gws 0 out h

/-- C12: applying `RebalanceGateways` twice gives exactly the list that applying
it once gives, upper bounds included, and one application keeps the ips, the
weights and the order.  This holds for every gateway list, so for those with
positive weights; when the first application panics (a total weight that wraps
to zero) there is no second one, and both sides are the panic. -/
theorem RebalanceGateways_idempotent (gws : List Gateway) :
    (RebalanceGateways gws).bind RebalanceGateways = RebalanceGateways gws ∧
    ∀ out, RebalanceGateways gws = some out →
      RebalanceGateways out = some out ∧
      out.map Gateway.ip = gws.map Gateway.ip ∧
      out.map Gateway.weight = gws.map Gateway.weight := by
  refine ⟨?_, ?_⟩
  · cases h : RebalanceGateways gws with
    | none => rfl
    | some out => exact RebalanceGateways_again gws out h
  · intro out h
    have hw := rebalanceLoop_weights _ gws 0 out h
    exact ⟨RebalanceGateways_again gws out h, hw.2, hw.1⟩

theorem idealLoop_get (tw : Nat) (gws : List Gateway) :
    ∀ (lw : Int) (i : Nat) (hi : i < (idealLoop tw lw gws).length),
      ((idealLoop tw lw gws).get ⟨i, hi⟩).upperBound
        = bucketBound tw (lw + weightSum (gws.take (i + 1))).toNat := by
  induction gws with
  | nil => intro lw i hi; simp [idealLoop] at hi
  | cons g rest ih =>
    intro lw i hi
    cases i with
    | zero => simp [idealLoop, Gateway.SetUpperBound, weightSum]
    | succ j =>
      simp only [idealLoop, List.length_cons, Nat.add_lt_add_iff_right] at hi
      have := ih (lw + g.weight) j hi
      simp only [idealLoop, List.get_eq_getElem, List.getElem_cons_succ, List.take_succ_cons,
        weightSum_cons] at this ⊢
      rw [this, add_assoc]

/-- When `v + d / 2` does not wrap, the quotient of `divAndRound` is an integer
nearest to `v / d`: it differs from `v / d` by at most one half. -/
theorem round_nearest (v d : Nat) (hd : 0 < d) :
    2 * ((v + d / 2) / d * d) ≤ 2 * v + d ∧ 2 * v ≤ 2 * ((v + d / 2) / d * d) + d := by
  have h1 : (v + d / 2) / d * d ≤ v + d / 2 := Nat.div_mul_le_self _ _
  have h2 : v + d / 2 < ((v + d / 2) / d + 1) * d := by
    rw [Nat.mul_comm]
    exact Nat.lt_mul_div_succ _ hd
  rw [Nat.add_mul, Nat.one_mul] at h2
  constructor <;> omega

/-- Within the range of the 64-bit arithmetic (non-negative weights, total
weight `W` between 1 and `2 ^ 33 - 2`) the upper bound of gateway `i` after
`RebalanceGateways` is `(cum_i * 2 ^ 31 + W / 2) / W - 1` with no step wrapping,
where `cum_i` is the sum of the weights of the gateways up to `i`, and the
quotient is an integer nearest to `cum_i * 2 ^ 31 / W`. -/
theorem RebalanceGateways_bound_formula (gws : List Gateway)
    (hpos : ∀ g ∈ gws, 0 ≤ g.weight) (h0 : 0 < weightSum gws)
    (h1 : weightSum gws ≤ 2 ^ 33 - 2) :
    ∃ out, RebalanceGateways gws = some out ∧ out.length = gws.length ∧
      ∀ (i : Nat) (hi : i < out.length),
        (out.get ⟨i, hi⟩).upperBound
          = ((((cumWeight gws i).toNat * 2 ^ 31 + (weightSum gws).toNat / 2)
              / (weightSum gws).toNat : Nat) : Int) - 1 ∧
        2 * (((cumWeight gws i).toNat * 2 ^ 31 + (weightSum gws).toNat / 2)
              / (weightSum gws).toNat * (weightSum gws).toNat)
          ≤ 2 * ((cumWeight gws i).toNat * 2 ^ 31) + (weightSum gws).toNat ∧
        2 * ((cumWeight gws i).toNat * 2 ^ 31)
          ≤ 2 * (((cumWeight gws i).toNat * 2 ^ 31 + (weightSum gws).toNat / 2)
              / (weightSum gws).toNat * (weightSum gws).toNat) + (weightSum gws).toNat := by
  refine ⟨_, RebalanceGateways_inRange gws hpos h0 h1, (idealLoop_ips _ gws 0).2.2, ?_⟩
  intro i hi
  refine ⟨?_, round_nearest _ _ (by omega)⟩
  rw [idealLoop_get, zero_add]
  rfl

/-- The two gateways of weights 3 and 2 of the second test. -/
theorem RebalanceGateways_bound_formula_witness :
    ∃ out, RebalanceGateways
        [NewGateway (Addr.ip4 0x01000001) 3, NewGateway (Addr.ip4 0x01000002) 2] = some out ∧
      out.length = [NewGateway (Addr.ip4 0x01000001) 3, NewGateway (Addr.ip4 0x01000002) 2].length ∧
      ∀ (i : Nat) (hi : i < out.length),
        (out.get ⟨i, hi⟩).upperBound
          = ((((cumWeight [NewGateway (Addr.ip4 0x01000001) 3,
                NewGateway (Addr.ip4 0x01000002) 2] i).toNat * 2 ^ 31 +
              (weightSum [NewGateway (Addr.ip4 0x01000001) 3,
                NewGateway (Addr.ip4 0x01000002) 2]).toNat / 2)
              / (weightSum [NewGateway (Addr.ip4 0x01000001) 3,
                NewGateway (Addr.ip4 0x01000002) 2]).toNat : Nat) : Int) - 1 :=
  (RebalanceGateways_bound_formula
    [NewGateway (Addr.ip4 0x01000001) 3, NewGateway (Addr.ip4 0x01000002) 2]
    (by decide) (by decide) (by decide)).imp
    (fun _ h => ⟨h.1, h.2.1, fun i hi => (h.2.2 i hi).1⟩)

/-- C14, evaluated at the failing input: gateways of weights 1 and `2 ^ 33 - 2`,
total `2 ^ 33 - 1`.  For the last gateway `v = cum * 2 ^ 31` still fits 64 bits
and `v / d` is exactly `2 ^ 31`, but `v + d / 2` wraps in `divAndRound`: the
quotient is `0`, not the nearest integer, and the stored bound is `-1` instead
of `2 ^ 31 - 1`. -/
theorem upper_bound_not_nearest :
    RebalanceGateways
        [NewGateway (Addr.ip4 0x01000001) 1, NewGateway (Addr.ip4 0x01000002) (2 ^ 33 - 2)]
      = some [⟨Addr.ip4 0x01000001, 1, -1⟩, ⟨Addr.ip4 0x01000002, 2 ^ 33 - 2, -1⟩] ∧
    cumWeight [NewGateway (Addr.ip4 0x01000001) 1, NewGateway (Addr.ip4 0x01000002) (2 ^ 33 - 2)] 1
      = 2 ^ 33 - 1 ∧
    ((2 ^ 33 - 1) * 2 ^ 31 : Nat) < 2 ^ 64 ∧
    ((2 ^ 33 - 1) * 2 ^ 31 : Nat) = 2 ^ 31 * (2 ^ 33 - 1) ∧
    divAndRound ((2 ^ 33 - 1) * 2 ^ 31) (2 ^ 33 - 1) = some 0 ∧
    bucketBound (2 ^ 33 - 1) (2 ^ 33 - 1) = 2 ^ 31 - 1 := by
  refine ⟨by decide, by decide, by decide, by decide, by decide, by decide⟩

/-! ## The number of routines -/

/-- C13, evaluated at the failing input: a configuration without `routines` (or
with `routines: 0`) and with `tun.routines: 0`, `listen.routines: 0`.  The
deprecated branch takes the larger of the two values without the test
`routines < 1` of the first branch: `routines` is 0, `udpConns` is empty and the
read of `udpConns[0]` panics.  With `routines: -3` the first branch gives 1. -/
theorem computeRoutines_zero :
    computeRoutines
      (fun k d => if k = "tun.routines" ∨ k = "listen.routines" then 0 else d) = 0 ∧
    firstUdpConnExists 0 = none ∧
    computeRoutines (fun k d => if k = "routines" then -3 else d) = 1 := by
  refine ⟨by decide, by decide, by decide⟩

/-- The number of routines is at least 1, and `udpConns[0]` exists, whenever
`routines` is set to a non-zero value or one of `tun.routines`,
`listen.routines` is at least 1 (as their default is). -/
theorem computeRoutines_pos (GetInt : String → Int → Int)
    (h : GetInt "routines" 0 ≠ 0 ∨ 1 ≤ GetInt "tun.routines" 1 ∨
      1 ≤ GetInt "listen.routines" 1) :
    1 ≤ computeRoutines GetInt ∧ firstUdpConnExists (computeRoutines GetInt) = some () := by
  have h1 : 1 ≤ computeRoutines GetInt := by
    unfold computeRoutines
    simp only []
    split_ifs <;> omega
  refine ⟨h1, ?_⟩
  unfold firstUdpConnExists makeUdpConns
  rw [if_neg (by omega)]
  simp only []
  rw [if_pos (by omega)]

/-- The default configuration: no key is set and `GetInt` returns its default. -/
theorem computeRoutines_pos_witness :
    1 ≤ computeRoutines (fun _ d => d) ∧
      firstUdpConnExists (computeRoutines (fun _ d => d)) = some () :=
  computeRoutines_pos (fun _ d => d) (Or.inr (Or.inl (by decide)))

end Nebula

namespace Nebula

/-! ## Self-addressed packets and unready routes -/

/-- C11, counterexample: the demo node on a platform that forwards to self, with
its own address 10.0.0.1 also configured as the broadcast address.  A packet for
10.0.0.1 is stopped by the local-broadcast filter, which comes first: nothing is
written to the device although `immediatelyForwardToSelf` is true. -/
theorem self_packet_dropped_as_broadcast :
    ({ demoEnv with immediatelyForwardToSelf := true,
                    myBroadcastAddr := Addr.ip4 0x0A000001 } : Env).newPacket [10, 0, 0, 1, 7] false
      = some ⟨Addr.ip4 0x0A000001, Addr.ip4 0x0A000001, 1000, 80, 6, false⟩ ∧
    ({ demoEnv with immediatelyForwardToSelf := true,
                    myBroadcastAddr := Addr.ip4 0x0A000001 } : Env).myVpnNetAddr
      = Addr.ip4 0x0A000001 ∧
    (consumeInsidePacket
      { demoEnv with immediatelyForwardToSelf := true, myBroadcastAddr := Addr.ip4 0x0A000001 }
      [10, 0, 0, 1, 7] [] demoOut 0 (freshWorld 0)).trace = [] := by
  refine ⟨by decide, by decide, by decide⟩

/-- C11, amended: for a packet that parses with `RemoteIP` equal to the node's
own VPN address, `consumeInsidePacket` leaves the world as it is but for one
event: unless the local-broadcast filter stops the packet (`dropLocalBroadcast`
set and the own address equal to the broadcast address), it writes the original
packet to device queue `q` when `immediatelyForwardToSelf` is true and nothing
when it is false; when the filter stops the packet nothing is written.  In every
case there is no lookup and no UDP write, and the result does not depend on the
firewall or on the handshake manager. -/
theorem self_addressed_packet (env : Env) (packet nb : Bytes) (out : Slice) (q : Nat)
    (w : World) (fwPacket : Packet)
    (hparse : env.newPacket packet false = some fwPacket)
    (hself : fwPacket.RemoteIP = env.myVpnNetAddr) :
    (¬(env.dropLocalBroadcast = true ∧ env.myVpnNetAddr = env.myBroadcastAddr) →
      consumeInsidePacket env packet nb out q w
        = if env.immediatelyForwardToSelf = true then w.emit (Event.tunWrite q packet) else w) ∧
    ((env.dropLocalBroadcast = true ∧ env.myVpnNetAddr = env.myBroadcastAddr) →
      consumeInsidePacket env packet nb out q w = w) ∧
    (∀ fw hm, consumeInsidePacket { env with firewallDrop := fw, handshakeManager := hm }
        packet nb out q w = consumeInsidePacket env packet nb out q w) ∧
    ∃ evs, (consumeInsidePacket env packet nb out q w).trace = w.trace ++ evs ∧
      (evs = [] ∨ evs = [Event.tunWrite q packet]) ∧
      ∀ e ∈ evs, e.isLookup = false ∧ e.isCachePacket = false ∧ e.isUdpWrite = false := by
  refine ⟨?_, ?_, ?_, ?_⟩
  · intro hb
    simp only [consumeInsidePacket, hparse, hself, hb, if_false, if_true]
  · intro hb
    simp only [consumeInsidePacket, hparse, hself, hb, and_self, if_true]
  · intro fw hm
    simp only [consumeInsidePacket, hparse, hself, if_true]
  · simp only [consumeInsidePacket, hparse, hself, if_true]
    split_ifs
    · exact ⟨[], by simp, Or.inl rfl, by simp⟩
    · refine ⟨[Event.tunWrite q packet], rfl, Or.inr rfl, ?_⟩
      intro e he
      rw [List.mem_singleton.1 he]
      exact ⟨rfl, rfl, rfl⟩
    · exact ⟨[], by simp, Or.inl rfl, by simp⟩

/-- C11, witness: the demo node on a platform that forwards to self writes the
packet for its own address 10.0.0.1 back to queue 0, and nothing else. -/
theorem self_addressed_packet_witness :
    (consumeInsidePacket { demoEnv with immediatelyForwardToSelf := true }
      [10, 0, 0, 1, 7] [] demoOut 0 (freshWorld 0)).trace
      = [Event.tunWrite 0 [10, 0, 0, 1, 7]] :=
  (congrArg World.trace
    ((self_addressed_packet { demoEnv with immediatelyForwardToSelf := true }
      [10, 0, 0, 1, 7] [] demoOut 0 (freshWorld 0)
      ⟨Addr.ip4 0x0A000001, Addr.ip4 0x0A000001, 1000, 80, 6, false⟩ (by rfl) (by rfl)).1
      (by decide))).trans (by decide)

theorem selectGateway_zero_or_mem (hash : Int) (gws : List Gateway) :
    selectGateway hash gws = Addr.zero ∨ ∃ g ∈ gws, selectGateway hash gws = g.Ip := by
  induction gws with
  | nil => exact Or.inl rfl
  | cons x rest ih =>
    by_cases hx : hash ≤ x.UpperBound
    · exact Or.inr ⟨x, List.mem_cons_self _ _, by simp [selectGateway, hx]⟩
    · rcases ih with h | ⟨g, hg, h⟩
      · exact Or.inl (by simp [selectGateway, hx, h])
      · exact Or.inr ⟨g, List.mem_cons_of_mem _ hg, by simp [selectGateway, hx, h]⟩

theorem balancePacket_ok_mem (sum64 : List Nat → Nat) (p : Packet) (gws : List Gateway)
    (ip : Addr) (h : balancePacket sum64 p gws = Except.ok ip) : ip ∈ gws.map Gateway.Ip := by
  unfold balancePacket at h
  simp only [] at h
  split_ifs at h with hv
  simp only [Except.ok.injEq] at h
  rcases selectGateway_zero_or_mem (hashPacket sum64 p) gws with h0 | ⟨g, hg, hsel⟩
  · rw [h0] at hv
    simp [Addr.IsValid] at hv
  · rw [← h, hsel]
    exact List.mem_map_of_mem _ hg

theorem triedIps_none_ready (env : Env) (ips : List Addr)
    (h : ∀ ip ∈ ips, (env.handshakeManager ip).ready = false) : triedIps env ips = ips := by
  unfold triedIps
  have h1 : ips.takeWhile (fun ip => !(env.handshakeManager ip).ready) = ips := by
    rw [List.takeWhile_eq_self_iff]
    intro ip hip
    simp [h ip hip]
  have h2 : ips.find? (fun ip => (env.handshakeManager ip).ready) = none := by
    rw [List.find?_eq_none]
    intro ip hip
    simp [h ip hip]
  rw [h1, h2]
  simp

theorem fallbackIps_eq_filter (gatewayIp : Addr) (gws : List Gateway) :
    fallbackIps gatewayIp gws = (gws.map Gateway.Ip).filter (fun ip => ip != gatewayIp) := by
  induction gws with
  | nil => rfl
  | cons g rest ih =>
    by_cases h : g.Ip = gatewayIp
    · rw [fallbackIps_cons_skip _ _ _ h, ih]
      simp [h]
    · rw [fallbackIps_cons_keep _ _ _ h, ih]
      simp [h]

theorem perm_cons_fallbackIps (gatewayIp : Addr) (gws : List Gateway)
    (hmem : gatewayIp ∈ gws.map Gateway.Ip) (hnodup : (gws.map Gateway.Ip).Nodup) :
    (gatewayIp :: fallbackIps gatewayIp gws).Perm (gws.map Gateway.Ip) := by
  rw [fallbackIps_eq_filter, ← List.Nodup.erase_eq_filter hnodup]
  exact (List.perm_cons_erase hmem).symm

/-- C15, counterexample: the demo node with every host pending and a route of
four gateways 10.0.0.2, 10.0.0.2, 10.0.0.3, 10.0.0.3.  The packet is balanced to
10.0.0.2; the fallback loop skips both gateways with that ip and asks for
10.0.0.3 twice: three lookups for four gateways, two of them for the same ip. -/
theorem unready_route_with_repeated_ips :
    demoEnv.myVpnNetContains (Addr.ip4 0xC0A80001) = false ∧
    balancePacket demoEnv.sum64 ⟨Addr.ip4 0x0A000001, Addr.ip4 0xC0A80001, 1000, 80, 6, false⟩
      [⟨Addr.ip4 0x0A000002, 1, 536870911⟩, ⟨Addr.ip4 0x0A000002, 1, 1073741823⟩,
        ⟨Addr.ip4 0x0A000003, 1, 1610612735⟩, ⟨Addr.ip4 0x0A000003, 1, 2147483647⟩]
      = Except.ok (Addr.ip4 0x0A000002) ∧
    lookups (getOrHandshakeConsiderRouting
      { demoEnv with
        handshakeManager := fun _ => ⟨some 9, false, true⟩,
        RoutesFor := fun _ =>
          [⟨Addr.ip4 0x0A000002, 1, 536870911⟩, ⟨Addr.ip4 0x0A000002, 1, 1073741823⟩,
            ⟨Addr.ip4 0x0A000003, 1, 1610612735⟩, ⟨Addr.ip4 0x0A000003, 1, 2147483647⟩] }
      ⟨Addr.ip4 0x0A000001, Addr.ip4 0xC0A80001, 1000, 80, 6, false⟩
      (some (cacheCallback demoEnv [192, 168, 0, 1, 7])) (freshWorld 0)).1.trace
      = [Addr.ip4 0x0A000002, Addr.ip4 0x0A000003, Addr.ip4 0x0A000003] ∧
    RebalanceGateways [NewGateway (Addr.ip4 0x0A000002) 1, NewGateway (Addr.ip4 0x0A000002) 1,
        NewGateway (Addr.ip4 0x0A000003) 1, NewGateway (Addr.ip4 0x0A000003) 1]
      = some [⟨Addr.ip4 0x0A000002, 1, 536870911⟩, ⟨Addr.ip4 0x0A000002, 1, 1073741823⟩,
        ⟨Addr.ip4 0x0A000003, 1, 1610612735⟩, ⟨Addr.ip4 0x0A000003, 1, 2147483647⟩] := by
  refine ⟨by decide, by rfl, by decide, ?_⟩
  simp [RebalanceGateways, sumWeights, rebalanceLoop, divAndRound, wrapInt, toUint64, ofUint64,
    NewGateway, Gateway.SetUpperBound]

/-- C15, amended: for a destination outside the VPN prefix whose route has two
or more gateways with pairwise distinct ips, for which `balancePacket` returns
`gatewayIp`, and none of whose gateways is ready, `getOrHandshakeConsiderRouting`
asks the handshake manager first for `gatewayIp` and then for every other
gateway in declared order: the lookups are a rearrangement of the ips of the
route, each gateway asked for exactly once; the function returns not ready. -/
theorem unready_route_asks_each_once (env : Env) (fwPacket : Packet) (packet : Option Bytes)
    (w : World) (gatewayIp : Addr)
    (hout : env.myVpnNetContains fwPacket.RemoteIP = false)
    (hmulti : 2 ≤ (env.RoutesFor fwPacket.RemoteIP).length)
    (hbal : balancePacket env.sum64 fwPacket (env.RoutesFor fwPacket.RemoteIP)
      = Except.ok gatewayIp)
    (hnodup : ((env.RoutesFor fwPacket.RemoteIP).map Gateway.Ip).Nodup)
    (hnone : ∀ g ∈ env.RoutesFor fwPacket.RemoteIP, (env.handshakeManager g.Ip).ready = false) :
    (getOrHandshakeConsiderRouting env fwPacket (packet.map (cacheCallback env)) w).2.2 = false ∧
    ∃ evs, (getOrHandshakeConsiderRouting env fwPacket
        (packet.map (cacheCallback env)) w).1.trace = w.trace ++ evs ∧
      lookups evs = gatewayIp :: fallbackIps gatewayIp (env.RoutesFor fwPacket.RemoteIP) ∧
      (lookups evs).Perm ((env.RoutesFor fwPacket.RemoteIP).map Gateway.Ip) ∧
      ∀ g ∈ env.RoutesFor fwPacket.RemoteIP, (lookups evs).count g.Ip = 1 := by
  have hmem := balancePacket_ok_mem _ _ _ _ hbal
  obtain ⟨g0, hg0, hg0ip⟩ := List.mem_map.1 hmem
  have hnot : (env.handshakeManager gatewayIp).ready = false := by
    rw [← hg0ip]
    exact hnone g0 hg0
  have hfall : ∀ ip ∈ fallbackIps gatewayIp (env.RoutesFor fwPacket.RemoteIP),
      (env.handshakeManager ip).ready = false := by
    intro ip hip
    obtain ⟨g, hg, _, rfl⟩ := mem_fallbackIps _ _ _ hip
    exact hnone g hg
  rw [routing_multi env fwPacket _ w gatewayIp hout hmulti hbal, if_neg (by simp [hnot])]
  obtain ⟨h1, h2⟩ := fallbackLoop_spec env packet gatewayIp (env.RoutesFor fwPacket.RemoteIP)
    (GetOrHandshake env gatewayIp (packet.map (cacheCallback env)) w).1 none false
  have hstep := gateStep_trans (GetOrHandshake_gate env gatewayIp packet w) h1
  rw [triedIps_none_ready env _ hfall] at hstep
  obtain ⟨⟨evs, ht, hl, _⟩, _⟩ := hstep
  replace hl : lookups evs
      = gatewayIp :: fallbackIps gatewayIp (env.RoutesFor fwPacket.RemoteIP) := hl
  have hperm := perm_cons_fallbackIps gatewayIp _ hmem hnodup
  refine ⟨?_, evs, ht, hl, ?_, ?_⟩
  · rw [h2]
    unfold fallbackAnswer
    rw [List.find?_eq_none.2 (fun ip hip => by simp [hfall ip hip])]
    cases (fallbackIps gatewayIp (env.RoutesFor fwPacket.RemoteIP)).getLast? <;> rfl
  · rw [hl]
    exact hperm
  · intro g hg
    rw [hl, hperm.count_eq]
    exact List.count_eq_one_of_mem hnodup (List.mem_map_of_mem _ hg)

/-- C15, witness: the demo node with every host pending; the three gateways of
the route to 192.168.0.1 are asked for once each, the balanced one first. -/
theorem unready_route_asks_each_once_witness :
    lookups (getOrHandshakeConsiderRouting
      { demoEnv with handshakeManager := fun _ => ⟨some 9, false, true⟩ }
      ⟨Addr.ip4 0x0A000001, Addr.ip4 0xC0A80001, 1000, 80, 6, false⟩
      (some (cacheCallback demoEnv [192, 168, 0, 1, 7])) (freshWorld 0)).1.trace
      = [Addr.ip4 0x0A000002, Addr.ip4 0x0A000003, Addr.ip4 0x0A000004] := by
  obtain ⟨_, evs, ht, hl, _⟩ := unready_route_asks_each_once
    { demoEnv with handshakeManager := fun _ => ⟨some 9, false, true⟩ }
    ⟨Addr.ip4 0x0A000001, Addr.ip4 0xC0A80001, 1000, 80, 6, false⟩ (some [192, 168, 0, 1, 7])
    (freshWorld 0) (Addr.ip4 0x0A000002) (by decide) (by decide) (by rfl) (by decide)
    (by decide)
  have ht2 : (getOrHandshakeConsiderRouting
      { demoEnv with handshakeManager := fun _ => ⟨some 9, false, true⟩ }
      ⟨Addr.ip4 0x0A000001, Addr.ip4 0xC0A80001, 1000, 80, 6, false⟩
      (some (cacheCallback demoEnv [192, 168, 0, 1, 7])) (freshWorld 0)).1.trace = evs := by
    simpa using ht
  rw [ht2, hl]
  decide

/-! ## The relay path -/

/-- The relay path of `sendNoMetrics`: the host 7 of the demo node has no
remote and the relay 10.0.0.4.  The packet written to the relay is the relay
header, then the inner header and the encrypted payload that `sendNoMetrics`
wrote behind the room it saved at the front of the buffer, then the tag. -/
theorem relayed_packet_holds_inner_packet :
    (sendNoMetrics
      { demoEnv with
        hostinfo := fun h =>
          if h = 7 then ⟨7, AddrPort.zero, 107, 207, Addr.ip4 0x0A000007⟩ else demoEnv.hostinfo h,
        QueryVpnIpRelayFor := fun _ r =>
          if r = Addr.ip4 0x0A000004 then some (4, ⟨300, 301⟩) else none }
      1 0 7 7 AddrPort.zero [9, 9, 9] [] ⟨List.replicate 80 0, 0⟩ 0
      { freshWorld 0 with relayIps := fun _ => [Addr.ip4 0x0A000004] }).trace.filter
        Event.isUdpWrite
      = [Event.udpWrite 0
          ([1, 1, 1, 300, 1] ++ List.replicate 11 0 ++ ([1, 1, 0, 107, 1] ++ List.replicate 11 0)
            ++ [9, 9, 9] ++ List.replicate 16 0 ++ List.replicate 16 0)
          ⟨Addr.ip4 0xCB007104, 4242⟩] := by
  rfl

end Nebula
